import Mathlib

/-
Verification development for the saas-kerp insurance EDI core.

The Python sources under python-services/ are shallowly embedded:
Python `bytes` become `List Nat` (each element a byte value), Python `str`
becomes `List Nat` of unicode codepoints (named `PyStr`), fallible code
returns `Option` or `Except`.  The EUC-KR charset is modelled at the byte
level: codepoints below 128 encode to one byte, a contiguous block of
codepoints starting at 128 encodes to two bytes with lead and trail bytes
in 0xA1..0xFE, everything else is unencodable.  The exact two-byte code
table of EUC-KR is irrelevant to every property proved here; only the
one-byte/two-byte structure of the charset matters.
-/

instance {ε α : Type} [DecidableEq ε] [DecidableEq α] : DecidableEq (Except ε α) :=
  fun a b =>
    match a, b with
    | .ok x, .ok y =>
      if h : x = y then .isTrue (by rw [h]) else .isFalse (by intro hc; cases hc; exact h rfl)
    | .error x, .error y =>
      if h : x = y then .isTrue (by rw [h]) else .isFalse (by intro hc; cases hc; exact h rfl)
    | .ok _, .error _ => .isFalse (by intro hc; cases hc)
    | .error _, .ok _ => .isFalse (by intro hc; cases hc)

namespace SaasKerp

/-- Python `str` modelled as a list of unicode codepoints. -/
abbrev PyStr := List Nat

/-- Codepoints of a Lean string literal, used to write concrete Python strings. -/
def strLit (s : String) : PyStr := s.data.map Char.toNat

/-- Python whitespace as used by `str.strip` and the regex class `\s`
(space, tab, LF, VT, FF, CR; wide whitespace is not needed by any claim). -/
def isSpaceCp (c : Nat) : Bool :=
  c == 32 || c == 9 || c == 10 || c == 11 || c == 12 || c == 13

/-- ASCII digit test, modelling `str.isdigit` on the ASCII range. -/
def isDigitCp (c : Nat) : Bool := 48 ≤ c && c ≤ 57

/-- `s.isdigit()`: non-empty and every character a digit. -/
def pyIsDigit (s : PyStr) : Bool := !s.isEmpty && s.all isDigitCp

/-- Remove trailing characters satisfying `p`. -/
def dropTrailWhile (p : Nat → Bool) (s : PyStr) : PyStr :=
  (s.reverse.dropWhile p).reverse

/-- Python `str.strip()`. -/
def pyStrip (s : PyStr) : PyStr := dropTrailWhile isSpaceCp (s.dropWhile isSpaceCp)

/-- Python `str.ljust(n)` (pads with spaces on the right; never truncates). -/
def ljust (n : Nat) (s : PyStr) : PyStr := s ++ List.replicate (n - s.length) 32

/-- Python `bytes.ljust(n)` (pads with the space byte 0x20). -/
def ljustBytes (n : Nat) (b : List Nat) : List Nat :=
  b ++ List.replicate (n - b.length) 32

/-- Python slicing `l[a:b]` for `a ≤ b` (forgiving at the end). -/
def pySlice (a b : Nat) (l : List Nat) : List Nat := (l.drop a).take (b - a)

/-- Decimal digits of a natural number (fuel-indexed so that it reduces in
the kernel; `natToStr` supplies enough fuel). -/
def natToStrAux : Nat → Nat → PyStr
  | 0, _ => []
  | fuel + 1, n => if n < 10 then [48 + n] else natToStrAux fuel (n / 10) ++ [48 + n % 10]

/-- Decimal digits of a natural number, as codepoints (`str` of a non-negative int). -/
def natToStr (n : Nat) : PyStr := natToStrAux (n + 1) n

/-- Python `str(i)` for an int. -/
def intToStr (i : Int) : PyStr :=
  if i < 0 then 45 :: natToStr i.natAbs else natToStr i.natAbs

/-- Python `str.zfill(n)`: left-pad with zeros, keeping a leading sign in place. -/
def zfill (n : Nat) (s : PyStr) : PyStr :=
  match s with
  | 45 :: rest => 45 :: (List.replicate (n - s.length) 48 ++ rest)
  | 43 :: rest => 43 :: (List.replicate (n - s.length) 48 ++ rest)
  | _ => List.replicate (n - s.length) 48 ++ s

/-- Value of a digit string (no sign), most significant digit first. -/
def parseNatDigits (s : PyStr) : Nat := s.foldl (fun a c => a * 10 + (c - 48)) 0

/-- Python `int(str)`: optional surrounding whitespace, optional sign, digits. -/
def pyParseInt (s : PyStr) : Option Int :=
  let t := pyStrip s
  match t with
  | 45 :: rest => if pyIsDigit rest then some (-(parseNatDigits rest : Int)) else none
  | 43 :: rest => if pyIsDigit rest then some (parseNatDigits rest : Int) else none
  | _ => if pyIsDigit t then some (parseNatDigits t : Int) else none

/-- Python `"sep".join`/`str.split` companions on codepoint lists. -/
def pySplit (sep : Nat) (s : PyStr) : List PyStr := s.splitOn sep

def pyJoin (sep : PyStr) (parts : List PyStr) : PyStr := List.intercalate sep parts

/-- Does `needle` occur at the head of `hay`? -/
def leadsWith : PyStr → PyStr → Bool
  | [], _ => true
  | _ :: _, [] => false
  | a :: as, b :: bs => a == b && leadsWith as bs

/-- Python `needle in hay` substring test. -/
def containsSub (hay needle : PyStr) : Bool :=
  (List.range (hay.length + 1)).any fun i => leadsWith needle (hay.drop i)

/-! ## EUC-KR charset model -/

/-- Encode one codepoint.  ASCII is one byte; a contiguous block of 94*94
codepoints starting at 128 stands in for the two-byte EUC-KR plane
(lead/trail bytes 0xA1..0xFE); other codepoints are unencodable. -/
def encodeCharEucKr (c : Nat) : Option (List Nat) :=
  if c < 128 then some [c]
  else if c < 128 + 94 * 94 then
    some [161 + (c - 128) / 94, 161 + (c - 128) % 94]
  else none

/-- Python `str.encode("euc-kr")` (strict: raises on unencodable input). -/
def encodeEucKr (s : PyStr) : Option (List Nat) :=
  (s.mapM encodeCharEucKr).map List.flatten

/-- Python `bytes.decode("euc-kr")` (strict). -/
def decodeEucKr : List Nat → Option PyStr
  | [] => some []
  | [b] => if b < 128 then some [b] else none
  | b :: b2 :: rest =>
    if b < 128 then (decodeEucKr (b2 :: rest)).map (b :: ·)
    else if 161 ≤ b && b ≤ 254 then
      if 161 ≤ b2 && b2 ≤ 254 then
        (decodeEucKr rest).map ((128 + (b - 161) * 94 + (b2 - 161)) :: ·)
      else none
    else none

/-- Python `bytes.decode("euc-kr", errors="ignore")`: invalid bytes are skipped. -/
def decodeIgnoreEucKr : List Nat → PyStr
  | [] => []
  | [b] => if b < 128 then [b] else []
  | b :: b2 :: rest =>
    if b < 128 then b :: decodeIgnoreEucKr (b2 :: rest)
    else if 161 ≤ b && b ≤ 254 then
      if 161 ≤ b2 && b2 ≤ 254 then
        (128 + (b - 161) * 94 + (b2 - 161)) :: decodeIgnoreEucKr rest
      else decodeIgnoreEucKr (b2 :: rest)
    else decodeIgnoreEucKr (b2 :: rest)

/-! ## shared/crypto/pkcs7.py — PKCS7Padding -/

namespace PKCS7Padding

/-- `PKCS7Padding.pad`: append `k` copies of byte `k` where
`k = padding_len = block_size - (len(data) % block_size)`. -/
def pad (blockSize : Nat) (data : List Nat) : List Nat :=
  data ++ List.replicate (blockSize - data.length % blockSize)
    (blockSize - data.length % blockSize)

/-- Errors raised by `PKCS7Padding.unpad` (all are `ValueError`/`BadPadding`). -/
inductive UnpadErr
  | emptyData
  | notMultiple
  | invalidLength
  | invalidBytes
deriving DecidableEq

/-- `PKCS7Padding.unpad`: validates non-empty input, length a multiple of the
block size, last byte `k` (`padding_len = data[-1]`, here `data.getLastD 0`)
with `1 ≤ k ≤ block_size`, and the final `k` bytes all equal to `k`; strips
the last `k` bytes. -/
def unpad (blockSize : Nat) (data : List Nat) : Except UnpadErr (List Nat) :=
  if data = [] then .error .emptyData
  else if data.length % blockSize ≠ 0 then .error .notMultiple
  else if data.getLastD 0 = 0 ∨ data.getLastD 0 > blockSize then .error .invalidLength
  else if (data.drop (data.length - data.getLastD 0)).all (· == data.getLastD 0) then
    .ok (data.take (data.length - data.getLastD 0))
  else .error .invalidBytes

end PKCS7Padding

/-! ## shared/utils/validators.py -/

/-- `re.sub(r"[-\s]", "", number)`: drop dashes and whitespace. -/
def cleanNumber (s : PyStr) : PyStr := s.filter fun c => !(c == 45 || isSpaceCp c)

/-- The check-digit computation of `validate_business_number` on the digit
list: `checksum = sum(w * d for w, d in zip(weights, digits[:9]))`, then
`checksum += (weights[8] * digits[8]) // 10`, and the check digit
`(10 - checksum % 10) % 10` must equal `digits[9]`. -/
def businessCheckDigitOk (digits : List Nat) : Bool :=
  (10 - (((([1, 3, 7, 1, 3, 7, 1, 3, 5] : List Nat).zip (digits.take 9)).map
      (fun p => p.1 * p.2)).sum
    + ([1, 3, 7, 1, 3, 7, 1, 3, 5] : List Nat).getD 8 0 * digits.getD 8 0 / 10) % 10)
    % 10 == digits.getD 9 0

/-- `validate_business_number`: 10 digits with the weighted check-digit
algorithm (weights `1,3,7,1,3,7,1,3,5`, plus `weights[8]*digits[8] // 10`). -/
def validateBusinessNumber (number : PyStr) : Bool :=
  if !pyIsDigit (cleanNumber number) || (cleanNumber number).length != 10 then false
  else businessCheckDigitOk ((cleanNumber number).map (fun c => c - 48))

/-- The claim's weighted checksum law, written over the digit list. -/
def specBusinessChecksumOk (ds : List Nat) : Prop :=
  (10 - ((1 * ds.getD 0 0 + 3 * ds.getD 1 0 + 7 * ds.getD 2 0 + 1 * ds.getD 3 0 +
    3 * ds.getD 4 0 + 7 * ds.getD 5 0 + 1 * ds.getD 6 0 + 3 * ds.getD 7 0 +
    5 * ds.getD 8 0 + 5 * ds.getD 8 0 / 10) % 10)) % 10 = ds.getD 9 0

/-! ## edi/client.py — EDIClient.connect retry loop -/

namespace EDIClient

structure ConnectTrace where
  attempts : Nat
  sleeps : List ℚ
deriving DecidableEq

inductive ConnectError
  | connectFailed (attempts : Nat)
deriving DecidableEq

/-- `EDIClient.connect` under the assumption that every connection attempt
fails: `for attempt in range(max_retries)` — each attempt fails, and after a
failed attempt `i = attempt + 1` the loop sleeps `retry_delay * (attempt + 1)`
provided `attempt < max_retries - 1`; after the loop a `ConnectionError`
("Failed to connect after N attempts") is raised. -/
def connectAllFail (maxRetries : Nat) (retryDelay : ℚ) :
    ConnectTrace × Except ConnectError Unit :=
  ((List.range maxRetries).foldl
    (fun t attempt =>
      ⟨t.attempts + 1,
        t.sleeps ++ (if attempt < maxRetries - 1 then [retryDelay * ((attempt : ℚ) + 1)] else [])⟩)
    ⟨0, []⟩,
   .error (.connectFailed maxRetries))

end EDIClient

/-! ## edi/message.py — enums, header, body, message -/

inductive MessageType
  | requestSubmit
  | requestQuery
  | requestDownload
  | requestCancel
  | responseSuccess
  | responseError
  | responsePending
deriving DecidableEq

/-- `MessageType.value` ("S", "Q", "D", "C", "0", "1", "2"). -/
def MessageType.value : MessageType → PyStr
  | .requestSubmit => strLit "S"
  | .requestQuery => strLit "Q"
  | .requestDownload => strLit "D"
  | .requestCancel => strLit "C"
  | .responseSuccess => strLit "0"
  | .responseError => strLit "1"
  | .responsePending => strLit "2"

/-- `MessageType(x)` enum lookup; `none` models the `ValueError`. -/
def MessageType.fromValue (s : PyStr) : Option MessageType :=
  if s = strLit "S" then some .requestSubmit
  else if s = strLit "Q" then some .requestQuery
  else if s = strLit "D" then some .requestDownload
  else if s = strLit "C" then some .requestCancel
  else if s = strLit "0" then some .responseSuccess
  else if s = strLit "1" then some .responseError
  else if s = strLit "2" then some .responsePending
  else none

inductive InsuranceType
  | nps
  | nhis
  | ei
  | wci
deriving DecidableEq

/-- `InsuranceType.value` ("10", "20", "30", "40"). -/
def InsuranceType.value : InsuranceType → PyStr
  | .nps => strLit "10"
  | .nhis => strLit "20"
  | .ei => strLit "30"
  | .wci => strLit "40"

/-- `InsuranceType(x)` enum lookup. -/
def InsuranceType.fromValue (s : PyStr) : Option InsuranceType :=
  if s = strLit "10" then some .nps
  else if s = strLit "20" then some .nhis
  else if s = strLit "30" then some .ei
  else if s = strLit "40" then some .wci
  else none

inductive DocumentType
  | npsAcquisition
  | npsLoss
  | npsChange
  | npsMonthlyReport
  | nhisAcquisition
  | nhisLoss
  | nhisChange
  | nhisDependent
  | eiAcquisition
  | eiLoss
  | wciAcquisition
  | wciLoss
deriving DecidableEq

/-- `DocumentType.value` ("1001" … "4002"). -/
def DocumentType.value : DocumentType → PyStr
  | .npsAcquisition => strLit "1001"
  | .npsLoss => strLit "1002"
  | .npsChange => strLit "1003"
  | .npsMonthlyReport => strLit "1004"
  | .nhisAcquisition => strLit "2001"
  | .nhisLoss => strLit "2002"
  | .nhisChange => strLit "2003"
  | .nhisDependent => strLit "2004"
  | .eiAcquisition => strLit "3001"
  | .eiLoss => strLit "3002"
  | .wciAcquisition => strLit "4001"
  | .wciLoss => strLit "4002"

/-- `DocumentType(x)` enum lookup. -/
def DocumentType.fromValue (s : PyStr) : Option DocumentType :=
  if s = strLit "1001" then some .npsAcquisition
  else if s = strLit "1002" then some .npsLoss
  else if s = strLit "1003" then some .npsChange
  else if s = strLit "1004" then some .npsMonthlyReport
  else if s = strLit "2001" then some .nhisAcquisition
  else if s = strLit "2002" then some .nhisLoss
  else if s = strLit "2003" then some .nhisChange
  else if s = strLit "2004" then some .nhisDependent
  else if s = strLit "3001" then some .eiAcquisition
  else if s = strLit "3002" then some .eiLoss
  else if s = strLit "4001" then some .wciAcquisition
  else if s = strLit "4002" then some .wciLoss
  else none

/-- Python `datetime` to the precision used on the wire. -/
structure PyDateTime where
  year : Nat
  month : Nat
  day : Nat
  hour : Nat
  minute : Nat
  second : Nat
  microsecond : Nat
deriving DecidableEq

def isLeapYear (y : Nat) : Bool := y % 4 == 0 && (y % 100 != 0 || y % 400 == 0)

def daysInMonth (y m : Nat) : Nat :=
  if m == 2 then (if isLeapYear y then 29 else 28)
  else if m == 4 || m == 6 || m == 9 || m == 11 then 30
  else 31

/-- `strftime("%Y%m%d%H%M%S")` (drops microseconds). -/
def fmt14 (t : PyDateTime) : PyStr :=
  zfill 4 (natToStr t.year) ++ zfill 2 (natToStr t.month) ++ zfill 2 (natToStr t.day) ++
    zfill 2 (natToStr t.hour) ++ zfill 2 (natToStr t.minute) ++ zfill 2 (natToStr t.second)

/-- `strptime(s, "%Y%m%d%H%M%S")`; `none` models the `ValueError` on
malformed input (wrong length, non-digits, or out-of-range fields). -/
def parse14 (s : PyStr) : Option PyDateTime :=
  if s.length = 14 && s.all isDigitCp then
    let y := parseNatDigits (s.take 4)
    let mo := parseNatDigits ((s.drop 4).take 2)
    let d := parseNatDigits ((s.drop 6).take 2)
    let hh := parseNatDigits ((s.drop 8).take 2)
    let mi := parseNatDigits ((s.drop 10).take 2)
    let ss := parseNatDigits ((s.drop 12).take 2)
    if 1 ≤ y && y ≤ 9999 && 1 ≤ mo && mo ≤ 12 && 1 ≤ d && d ≤ daysInMonth y mo &&
        hh ≤ 23 && mi ≤ 59 && ss ≤ 59 then
      some ⟨y, mo, d, hh, mi, ss, 0⟩
    else none
  else none

/-- `EDIHeader` (100-byte fixed header record). -/
structure EDIHeader where
  messageId : PyStr := []
  messageType : MessageType := .requestSubmit
  messageVersion : PyStr := strLit "1.0"
  senderId : PyStr := []
  senderName : PyStr := []
  insuranceType : InsuranceType := .nps
  receiverCode : PyStr := []
  sendDatetime : PyDateTime
  sequenceNo : Int := 1
  encrypted : Bool := true
  signed : Bool := true
deriving DecidableEq

/-- `EDIHeader.to_bytes`: each field `ljust`-padded and truncated to its
width as a string, the sender name first round-tripped through EUC-KR bytes
(`encode → ljust(30)[:30] → decode(errors="ignore")`), the whole joined,
EUC-KR encoded and byte-padded/truncated to exactly 100 bytes.  `none`
models a `UnicodeEncodeError` on unencodable field text. -/
def EDIHeader.toBytes (h : EDIHeader) : Option (List Nat) := do
  let nameBytes ← encodeEucKr h.senderName
  let namePart := decodeIgnoreEucKr ((ljustBytes 30 nameBytes).take 30)
  let headerStr :=
    (ljust 20 h.messageId).take 20 ++ (ljust 1 h.messageType.value).take 1 ++
    (ljust 4 h.messageVersion).take 4 ++ (ljust 13 h.senderId).take 13 ++
    namePart ++ (ljust 2 h.insuranceType.value).take 2 ++
    (ljust 3 h.receiverCode).take 3 ++ fmt14 h.sendDatetime ++
    (zfill 4 (intToStr h.sequenceNo)).take 4 ++
    (if h.encrypted then strLit "Y" else strLit "N") ++
    (if h.signed then strLit "Y" else strLit "N")
  let bs ← encodeEucKr headerStr
  return (ljustBytes 100 bs).take 100

/-- `EDIHeader.from_bytes`: decode EUC-KR with `errors="ignore"`, slice the
text at fixed character positions, strip each field; `none` models the
`ValueError` from an invalid `MessageType`/`InsuranceType` enum value or an
unparsable timestamp.  `datetime.now()` (used when the timestamp slice is
blank) is passed in as `now`. -/
def EDIHeader.fromBytes (now : PyDateTime) (data : List Nat) : Option EDIHeader := do
  let text := decodeIgnoreEucKr data
  let mtStr := pyStrip (pySlice 20 21 text)
  let mt ← MessageType.fromValue (if mtStr = [] then strLit "S" else mtStr)
  let itStr := pyStrip (pySlice 68 70 text)
  let it ← InsuranceType.fromValue (if itStr = [] then strLit "10" else itStr)
  let dtStr := pySlice 73 87 text
  let dt ← if pyStrip dtStr = [] then some now else parse14 dtStr
  let seqStr := pySlice 87 91 text
  return {
    messageId := pyStrip (pySlice 0 20 text)
    messageType := mt
    messageVersion := pyStrip (pySlice 21 25 text)
    senderId := pyStrip (pySlice 25 38 text)
    senderName := pyStrip (pySlice 38 68 text)
    insuranceType := it
    receiverCode := pyStrip (pySlice 70 73 text)
    sendDatetime := dt
    sequenceNo := if pyIsDigit (pyStrip seqStr) then (parseNatDigits (pyStrip seqStr) : Int) else 1
    encrypted := pySlice 91 92 text = strLit "Y"
    signed := pySlice 92 93 text = strLit "Y" }

/-- `EDIBody`; `records` holds each record's values in insertion order. -/
structure EDIBody where
  documentType : DocumentType := .npsAcquisition
  documentCount : Int := 1
  companyId : PyStr := []
  companyName : PyStr := []
  businessNo : PyStr := []
  records : List (List PyStr) := []
  rawData : List Nat := []
deriving DecidableEq

/-- `EDIBody.to_bytes`: returns `raw_data` when non-empty, otherwise joins
the document-header line `doc|count|company|business` and the pipe-joined
records with newlines and EUC-KR encodes the result. -/
def EDIBody.toBytes (b : EDIBody) : Option (List Nat) :=
  if b.rawData ≠ [] then some b.rawData
  else
    encodeEucKr (pyJoin (strLit "\n")
      ((b.documentType.value ++ strLit "|" ++ intToStr b.documentCount ++ strLit "|" ++
          b.companyId ++ strLit "|" ++ b.businessNo)
        :: b.records.map (pyJoin (strLit "|"))))

/-- The `try` body of `EDIBody.from_bytes`; `none` models any exception. -/
def EDIBody.attemptParse (data : List Nat) : Option EDIBody := do
  let text ← decodeEucKr data
  let lines := pySplit 10 (pyStrip text)
  let headerParts := pySplit 124 (lines.headD [])
  let dt ← if headerParts.length > 0 then DocumentType.fromValue (headerParts.getD 0 [])
    else some .npsAcquisition
  let cnt ← if headerParts.length > 1 then pyParseInt (headerParts.getD 1 []) else some 1
  return {
    documentType := dt
    documentCount := cnt
    companyId := if headerParts.length > 2 then headerParts.getD 2 [] else []
    businessNo := if headerParts.length > 3 then headerParts.getD 3 [] else []
    rawData := data
    records := (lines.drop 1).filterMap fun line =>
      if pyStrip line ≠ [] then some (pySplit 124 line) else none }

/-- `EDIBody.from_bytes`: total — any parsing exception falls back to a body
carrying the input as `raw_data`. -/
def EDIBody.fromBytes (data : List Nat) : EDIBody :=
  (EDIBody.attemptParse data).getD { rawData := data }

/-- `EDIMessage`. -/
structure EDIMessage where
  header : EDIHeader
  body : EDIBody
  responseCode : PyStr := []
  responseMessage : PyStr := []
  responseData : Option (List Nat) := none
deriving DecidableEq

/-- `int.to_bytes(4, "big")`; `none` models `OverflowError`. -/
def u32pack (n : Nat) : Option (List Nat) :=
  if n < 4294967296 then
    some [n / 16777216, n / 65536 % 256, n / 256 % 256, n % 256]
  else none

/-- `int.from_bytes(bs, "big")`. -/
def u32read (bs : List Nat) : Nat := bs.foldl (fun a b => a * 256 + b) 0

/-- `struct.unpack(">I", bs)`; `none` models `struct.error` when `bs` does
not hold exactly 4 bytes. -/
def u32unpack (bs : List Nat) : Option Nat :=
  if bs.length = 4 then some (u32read bs) else none

/-- `EDIMessage.to_bytes`: header bytes, then a 4-byte big-endian body
length, then the body bytes. -/
def EDIMessage.toBytes (m : EDIMessage) : Option (List Nat) := do
  let headerBytes ← m.header.toBytes
  let bodyBytes ← m.body.toBytes
  let lengthPrefix ← u32pack bodyBytes.length
  return headerBytes ++ lengthPrefix ++ bodyBytes

inductive DecodeErr
  | shortMessage
  | oversizeBody
  | headerParse
  | structError
  | cryptoError
  | badPadding
  | verifyRaise
deriving DecidableEq

/-- `EDIMessage.from_bytes`: rejects inputs shorter than 104 bytes
("Message too short"), parses the header, reads the 4-byte length prefix and
slices the body — with no check of the length prefix against any cap. -/
def EDIMessage.fromBytes (now : PyDateTime) (data : List Nat) : Except DecodeErr EDIMessage :=
  if data.length < 104 then .error .shortMessage
  else
    match EDIHeader.fromBytes now (data.take 100) with
    | none => .error .headerParse
    | some h =>
      .ok { header := h,
            body := EDIBody.fromBytes (pySlice 104 (104 + u32read (pySlice 100 104 data)) data) }

/-- `EDIMessage.create_submit_message`; the fresh `uuid` (truncated to 20
characters) and the current time are passed in explicitly. -/
def EDIMessage.createSubmitMessage (messageId : PyStr) (now : PyDateTime)
    (senderId : PyStr) (insuranceType : InsuranceType) (documentType : DocumentType)
    (records : List (List PyStr)) (companyId businessNo : PyStr) : EDIMessage :=
  { header := { messageId := messageId.take 20, messageType := .requestSubmit,
                senderId := senderId, insuranceType := insuranceType,
                sendDatetime := now },
    body := { documentType := documentType, documentCount := (records.length : Int),
              companyId := companyId, businessNo := businessNo, records := records } }

/-! ## edi/protocol.py — EDIProtocol -/

/-- `ProtocolConfig` (the fields the framing/parsing path reads). -/
structure ProtocolConfig where
  encryptionEnabled : Bool := true
  signingEnabled : Bool := true
  headerSize : Nat := 100
  lengthPrefixSize : Nat := 4
  maxBodySize : Nat := 10485760
deriving DecidableEq

def defaultProtocolConfig : ProtocolConfig := {}

/-- Modelled from the spec: `shared/crypto/aria.py` (`ARIAModeCBC`) is not
under src/ — only its tests and callers are.  Spec §4.1 describes the cipher
as a generic 128-bit block cipher exposing single-block encrypt/decrypt plus
a CBC mode taking a 128-bit IV whose inputs must be a whole number of
blocks.  The single-block maps are abstract parameters here. -/
structure CBCCipher where
  encBlock : List Nat → List Nat
  decBlock : List Nat → List Nat
  iv : List Nat

def xorBytes (a b : List Nat) : List Nat := List.zipWith Nat.xor a b

def chunk16Aux : Nat → List Nat → List (List Nat)
  | 0, _ => []
  | _, [] => []
  | fuel + 1, l => l.take 16 :: chunk16Aux fuel (l.drop 16)

/-- Split into consecutive 16-byte blocks. -/
def chunk16 (l : List Nat) : List (List Nat) := chunk16Aux l.length l

def cbcEncryptBlocks (c : CBCCipher) : List Nat → List (List Nat) → List (List Nat)
  | _, [] => []
  | prev, p :: rest =>
    c.encBlock (xorBytes p prev) :: cbcEncryptBlocks c (c.encBlock (xorBytes p prev)) rest

/-- Modelled from the spec: CBC encryption; rejects inputs that are not a
whole number of blocks. -/
def CBCCipher.encrypt (c : CBCCipher) (data : List Nat) : Except DecodeErr (List Nat) :=
  if data.length % 16 ≠ 0 then .error .cryptoError
  else .ok (cbcEncryptBlocks c c.iv (chunk16 data)).flatten

def cbcDecryptBlocks (c : CBCCipher) : List Nat → List (List Nat) → List (List Nat)
  | _, [] => []
  | prev, cb :: rest => xorBytes (c.decBlock cb) prev :: cbcDecryptBlocks c cb rest

/-- Modelled from the spec: CBC decryption. -/
def CBCCipher.decrypt (c : CBCCipher) (data : List Nat) : Except DecodeErr (List Nat) :=
  if data.length % 16 ≠ 0 then .error .cryptoError
  else .ok (cbcDecryptBlocks c c.iv (chunk16 data)).flatten

/-- `PKCS7Signature` as the protocol uses it: the RSA primitives stay
abstract; `hasCert` says whether a certificate is loaded, `sign` returns
`none` where `sign_raw` would raise, and `verify` is the boolean outcome of
`public_key.verify` (total, because `verify_raw` wraps it in `try/except`). -/
structure Signer where
  sign : List Nat → Option (List Nat)
  verify : List Nat → List Nat → Bool
  hasCert : Bool

/-- `PKCS7Signature.verify_raw` with `public_key=None`: raises
`ValueError("Certificate not loaded")` when no certificate is loaded;
otherwise returns the boolean verdict and never raises. -/
def Signer.verifyRaw (s : Signer) (data sig : List Nat) : Except DecodeErr Bool :=
  if s.hasCert then .ok (s.verify data sig) else .error .verifyRaise

/-- `EDIProtocol.frame_message`: serialize the body, sign it (a signing
exception is swallowed, leaving an empty signature), build
`u32(len(body)) ++ body ++ u32(len(sig)) ++ sig` when a signature exists,
pad and CBC-encrypt when a cipher is configured, set the header flags
(`encrypted = bool(self._cipher)`, `signed = bool(signature)`), and emit
`header(100) ++ u32(len(payload)) ++ payload`. -/
def frameMessage (cfg : ProtocolConfig) (cipher : Option CBCCipher)
    (signer : Option Signer) (msg : EDIMessage) : Option (List Nat) := do
  let bodyBytes ← msg.body.toBytes
  let signature := match signer with
    | some s => if cfg.signingEnabled then (s.sign bodyBytes).getD [] else []
    | none => []
  let payload ← (if signature ≠ [] then
      (u32pack bodyBytes.length).bind fun bl =>
        (u32pack signature.length).map fun sl => bl ++ bodyBytes ++ sl ++ signature
    else some bodyBytes)
  let payload2 ← (match cipher with
    | some c =>
      if cfg.encryptionEnabled then (c.encrypt (PKCS7Padding.pad 16 payload)).toOption
      else some payload
    | none => some payload)
  let newHeader : EDIHeader :=
    { msg.header with encrypted := cipher.isSome, signed := signature != [] }
  let headerBytes ← newHeader.toBytes
  let lenPrefix ← u32pack payload2.length
  return headerBytes ++ lenPrefix ++ payload2

/-- `EDIProtocol.parse_message`, steps 1–3: length check ("Message too
short"), header parse, payload-length read and cap check ("Payload too
large"), payload slice. -/
def parseStage1 (cfg : ProtocolConfig) (now : PyDateTime) (data : List Nat) :
    Except DecodeErr (EDIHeader × List Nat) :=
  if data.length < cfg.headerSize + cfg.lengthPrefixSize then .error .shortMessage
  else
    match EDIHeader.fromBytes now (data.take cfg.headerSize) with
    | none => .error .headerParse
    | some h =>
      match u32unpack (pySlice cfg.headerSize (cfg.headerSize + cfg.lengthPrefixSize) data) with
      | none => .error .structError
      | some payloadLength =>
        if payloadLength > cfg.maxBodySize then .error .oversizeBody
        else .ok (h, pySlice (cfg.headerSize + cfg.lengthPrefixSize)
            (cfg.headerSize + cfg.lengthPrefixSize + payloadLength) data)

/-- `EDIProtocol.parse_message`, step 4: decrypt and unpad when the header's
encrypted flag is set and a cipher is configured; a padding failure
propagates. -/
def decryptStage (cipher : Option CBCCipher) (h : EDIHeader) (payload : List Nat) :
    Except DecodeErr (List Nat) :=
  match cipher with
  | some c =>
    if h.encrypted then
      match c.decrypt payload with
      | .error e => .error e
      | .ok decrypted =>
        match PKCS7Padding.unpad 16 decrypted with
        | .ok p => .ok p
        | .error _ => .error .badPadding
    else .ok payload
  | none => .ok payload

/-- `EDIProtocol.parse_message`, step 5a: split the payload into body and
signature by the two embedded length prefixes (`struct.unpack` raises when a
prefix slice is short). -/
def signedSplit (payload : List Nat) : Except DecodeErr (List Nat × List Nat) :=
  match u32unpack (payload.take 4) with
  | none => .error .structError
  | some bodyLength =>
    match u32unpack (pySlice (4 + bodyLength) (4 + bodyLength + 4) payload) with
    | none => .error .structError
    | some sigLength =>
      .ok (pySlice 4 (4 + bodyLength) payload,
        pySlice (4 + bodyLength + 4) (4 + bodyLength + 4 + sigLength) payload)

/-- `EDIProtocol.parse_message`, step 5b: `signature_valid` starts `True`
and is overwritten by `verify_raw` only when a signer object exists. -/
def verifyStage (signer : Option Signer) (bodyData sig : List Nat) : Except DecodeErr Bool :=
  match signer with
  | some s => s.verifyRaw bodyData sig
  | none => .ok true

/-- `EDIProtocol.parse_message`. -/
def parseMessage (cfg : ProtocolConfig) (cipher : Option CBCCipher) (signer : Option Signer)
    (now : PyDateTime) (data : List Nat) : Except DecodeErr (EDIMessage × Bool) := do
  let hp ← parseStage1 cfg now data
  let payload2 ← decryptStage cipher hp.1 hp.2
  if hp.1.signed then do
    let bs ← signedSplit payload2
    let valid ← verifyStage signer bs.1 bs.2
    return ({ header := hp.1, body := EDIBody.fromBytes bs.1 }, valid)
  else
    return ({ header := hp.1, body := EDIBody.fromBytes payload2 }, true)

/-- All codepoints ASCII (one byte in EUC-KR). -/
def asciiStr (s : PyStr) : Prop := ∀ c ∈ s, c < 128

/-- The datetime values `datetime` itself can hold (year 1..9999, real
calendar day, 24h clock), restricted to 4-digit years and whole seconds so
that `strftime("%Y%m%d%H%M%S")` is lossless. -/
def PyDateTime.Valid (t : PyDateTime) : Prop :=
  1000 ≤ t.year ∧ t.year ≤ 9999 ∧ 1 ≤ t.month ∧ t.month ≤ 12 ∧
  1 ≤ t.day ∧ t.day ≤ daysInMonth t.year t.month ∧
  t.hour ≤ 23 ∧ t.minute ≤ 59 ∧ t.second ≤ 59 ∧ t.microsecond = 0

/-- Headers that survive the fixed-width wire format: ASCII text fields
within their declared widths carrying no leading/trailing whitespace, a
valid whole-second timestamp, and a sequence number of at most 4 digits. -/
def WellFormedHeader (h : EDIHeader) : Prop :=
  (asciiStr h.messageId ∧ h.messageId.length ≤ 20 ∧ pyStrip h.messageId = h.messageId) ∧
  (asciiStr h.messageVersion ∧ h.messageVersion.length ≤ 4 ∧
    pyStrip h.messageVersion = h.messageVersion) ∧
  (asciiStr h.senderId ∧ h.senderId.length ≤ 13 ∧ pyStrip h.senderId = h.senderId) ∧
  (asciiStr h.senderName ∧ h.senderName.length ≤ 30 ∧ pyStrip h.senderName = h.senderName) ∧
  (asciiStr h.receiverCode ∧ h.receiverCode.length ≤ 3 ∧
    pyStrip h.receiverCode = h.receiverCode) ∧
  h.sendDatetime.Valid ∧ 0 ≤ h.sequenceNo ∧ h.sequenceNo ≤ 9999

/-! ## providers/base.py and providers/ei.py -/

/-- The `company` sub-dict; a missing key and an empty string behave alike
under the code's truthiness checks, so both are the empty string here. -/
structure CompanyData where
  businessNo : PyStr := []
  workplaceNo : PyStr := []
deriving DecidableEq

structure EmployeeData where
  name : PyStr := []
  residentNo : PyStr := []
deriving DecidableEq

/-- `BaseProvider._validate_company_data`: business number present and
exactly 10 characters, workplace number present — no checksum validation. -/
def validateCompanyData (c : CompanyData) : List PyStr :=
  (if c.businessNo = [] then [strLit "사업자등록번호가 누락되었습니다"]
   else if c.businessNo.length ≠ 10 then [strLit "사업자등록번호는 10자리여야 합니다"]
   else [])
  ++ (if c.workplaceNo = [] then [strLit "사업장관리번호가 누락되었습니다"] else [])

/-- `BaseProvider._validate_employee_data`: name present, resident number
present and 13 characters after removing dashes. -/
def validateEmployeeData (e : EmployeeData) : List PyStr :=
  (if e.name = [] then [strLit "직원 이름이 누락되었습니다"] else [])
  ++ (if e.residentNo = [] then [strLit "주민등록번호가 누락되었습니다"]
      else if (e.residentNo.filter (fun c => c != 45)).length ≠ 13 then
        [strLit "주민등록번호는 13자리여야 합니다"]
      else [])

structure SubmissionResult where
  success : Bool
  referenceId : PyStr := []
  errorCode : PyStr := []
  errorMessage : PyStr := []
deriving DecidableEq

/-- `BaseProvider._format_date`: strip `-`, `/`, `.` separators, keep the
first 8 characters. -/
def formatDate (s : PyStr) : PyStr :=
  (s.filter (fun c => !(c == 45 || c == 47 || c == 46))).take 8

/-- `BaseProvider._format_amount`: 15 digits, zero-padded. -/
def formatAmount (amount : Int) : PyStr := zfill 15 (intToStr amount)

/-- The `acquisition` sub-dict with the `.get` defaults the code uses. -/
structure AcquisitionData where
  date : PyStr := []
  monthlyIncome : Int := 0
  workHours : Nat := 40
  contractType : PyStr := []
  contractPeriod : PyStr := []
  jobType : PyStr := strLit "000"
  isForeignWorker : Bool := false
  visaType : PyStr := []
deriving DecidableEq

/-- `EIProvider._determine_employment_type`. -/
def determineEmploymentType (workHours : Nat) (contractType : PyStr) : PyStr :=
  if workHours < 15 then strLit "2"
  else if contractType = strLit "self_employed" then strLit "3"
  else if contractType = strLit "artist" then strLit "4"
  else if contractType = strLit "gig" then strLit "5"
  else strLit "1"

/-- The acquisition record dict of `EIProvider.submit_acquisition`, values in
insertion order. -/
def eiAcquisitionRecord (e : EmployeeData) (a : AcquisitionData) : List PyStr :=
  [strLit "D",
   e.residentNo.filter (fun c => c != 45),
   e.name,
   formatDate a.date,
   formatAmount a.monthlyIncome,
   zfill 2 (natToStr a.workHours),
   determineEmploymentType a.workHours a.contractType,
   a.contractPeriod,
   a.jobType,
   if a.isForeignWorker then strLit "Y" else strLit "N",
   if a.isForeignWorker then a.visaType else []]

structure SubmitAcquisitionData where
  company : CompanyData
  employee : EmployeeData
  acquisition : AcquisitionData
deriving DecidableEq

/-- Outcome of a provider submit up to the network boundary: either a
synchronous validation failure, or a message handed to the client for
transmission. -/
inductive SubmitOutcome where
  | validationFailure (result : SubmissionResult)
  | sendsToWire (message : EDIMessage)
deriving DecidableEq

def SubmitOutcome.reachesWire : SubmitOutcome → Bool
  | .sendsToWire _ => true
  | .validationFailure _ => false

def SubmitOutcome.errCode : SubmitOutcome → PyStr
  | .sendsToWire _ => []
  | .validationFailure r => r.errorCode

def SubmitOutcome.errMsg : SubmitOutcome → PyStr
  | .sendsToWire _ => []
  | .validationFailure r => r.errorMessage

/-- `EIProvider.submit_acquisition` up to the network boundary: validate,
and on failure return `VALIDATION_ERROR` with the messages joined by `"; "`;
otherwise build the acquisition record and the submit message that is handed
to `send_with_retry`. -/
def eiSubmitAcquisition (messageId : PyStr) (now : PyDateTime)
    (data : SubmitAcquisitionData) : SubmitOutcome :=
  if validateCompanyData data.company ++ validateEmployeeData data.employee ≠ [] then
    .validationFailure
      { success := false, errorCode := strLit "VALIDATION_ERROR",
        errorMessage := pyJoin (strLit "; ")
          (validateCompanyData data.company ++ validateEmployeeData data.employee) }
  else
    .sendsToWire (EDIMessage.createSubmitMessage messageId now data.company.workplaceNo
      .ei .eiAcquisition [eiAcquisitionRecord data.employee data.acquisition]
      data.company.workplaceNo data.company.businessNo)

/-- The `loss` sub-dict with the `.get` defaults the code uses. -/
structure LossData where
  reasonCode : PyStr := []
  isVoluntary : Bool := false
  date : PyStr := []
  finalIncome : Int := 0
  totalWorkDays : Nat := 0
deriving DecidableEq

structure LossReason where
  code : PyStr
  detail : PyStr
  eligible : Bool
deriving DecidableEq

/-- `EIProvider._map_loss_reason`: the static reason table, with the
voluntary-flag fallback for unknown codes. -/
def mapLossReason (reasonCode : PyStr) (isVoluntary : Bool) : LossReason :=
  if reasonCode = strLit "11" then ⟨strLit "11", strLit "회사사정 해고", true⟩
  else if reasonCode = strLit "12" then ⟨strLit "12", strLit "계약기간 만료", true⟩
  else if reasonCode = strLit "13" then ⟨strLit "13", strLit "정년퇴직", true⟩
  else if reasonCode = strLit "14" then ⟨strLit "14", strLit "구조조정", true⟩
  else if reasonCode = strLit "15" then ⟨strLit "15", strLit "사업장 이전", true⟩
  else if reasonCode = strLit "16" then ⟨strLit "16", strLit "권고사직", true⟩
  else if reasonCode = strLit "21" then ⟨strLit "21", strLit "자진퇴사", false⟩
  else if reasonCode = strLit "22" then ⟨strLit "22", strLit "전직", false⟩
  else if reasonCode = strLit "23" then ⟨strLit "23", strLit "개인사정", false⟩
  else if reasonCode = strLit "31" then ⟨strLit "31", strLit "임금체불로 퇴직", true⟩
  else if reasonCode = strLit "32" then ⟨strLit "32", strLit "직장 내 괴롭힘", true⟩
  else if reasonCode = strLit "33" then ⟨strLit "33", strLit "가족 간병", true⟩
  else if isVoluntary then ⟨strLit "21", strLit "자진퇴사", false⟩
  else ⟨strLit "11", strLit "회사사정 해고", true⟩

/-- The loss record dict of `EIProvider.submit_loss`, values in insertion
order; index 9 is `benefit_eligible`. -/
def eiLossRecord (e : EmployeeData) (l : LossData) : List PyStr :=
  [strLit "D",
   e.residentNo.filter (fun c => c != 45),
   e.name,
   formatDate l.date,
   (mapLossReason l.reasonCode l.isVoluntary).code,
   (mapLossReason l.reasonCode l.isVoluntary).detail,
   formatAmount l.finalIncome,
   zfill 4 (natToStr l.totalWorkDays),
   if l.isVoluntary then strLit "Y" else strLit "N",
   if (mapLossReason l.reasonCode l.isVoluntary).eligible then strLit "Y" else strLit "N"]

structure SubmitLossData where
  company : CompanyData
  employee : EmployeeData
  loss : LossData
deriving DecidableEq

/-- `EIProvider.submit_loss` up to the network boundary (document type
`EI_LOSS`, code "3002"). -/
def eiSubmitLoss (messageId : PyStr) (now : PyDateTime) (data : SubmitLossData) :
    SubmitOutcome :=
  if validateCompanyData data.company ++ validateEmployeeData data.employee ≠ [] then
    .validationFailure
      { success := false, errorCode := strLit "VALIDATION_ERROR",
        errorMessage := pyJoin (strLit "; ")
          (validateCompanyData data.company ++ validateEmployeeData data.employee) }
  else
    .sendsToWire (EDIMessage.createSubmitMessage messageId now data.company.workplaceNo
      .ei .eiLoss [eiLossRecord data.employee data.loss]
      data.company.workplaceNo data.company.businessNo)

/-! ## Concrete data for witnesses and counterexamples -/

def testDT : PyDateTime := ⟨2026, 1, 2, 3, 4, 5, 0⟩

def testHdr : EDIHeader :=
  { messageId := strLit "MSG001", senderId := strLit "1234567890123",
    receiverCode := strLit "001", sendDatetime := testDT, sequenceNo := 1 }

/-- The concrete 100-byte encoding of `testHdr`. -/
def testHdrBytes : List Nat := (EDIHeader.toBytes testHdr).getD []

/-- A concrete compliant instance of the spec-modelled block cipher (the
identity single-block permutation). -/
def ceCipher : CBCCipher := ⟨id, id, List.replicate 16 0⟩

def ceSigner : Signer := ⟨fun _ => some [9, 9, 9, 9], fun _ _ => true, true⟩

/-- A signer whose verification rejects, certificate loaded. -/
def wSigner : Signer := ⟨fun _ => some [9, 9, 9, 9], fun _ _ => false, true⟩

def ceMsg : EDIMessage := { header := testHdr, body := { rawData := strLit "REF|1" } }

def ceFramed : List Nat :=
  (frameMessage defaultProtocolConfig (some ceCipher) (some ceSigner) ceMsg).getD []

/-- `ceFramed` with one byte of the encrypted payload flipped (the last byte
of the second-to-last ciphertext block, XORed with 0x80). -/
def ceTampered : List Nat := ceFramed.set 119 ((ceFramed.getD 119 0) ^^^ 128)

def w9Hdr : EDIHeader := { testHdr with encrypted := false, signed := true }

def w9Payload : List Nat := [0, 0, 0, 5] ++ strLit "REF|1" ++ [0, 0, 0, 0]

def w9Data : List Nat := (EDIHeader.toBytes w9Hdr).getD [] ++ [0, 0, 0, 13] ++ w9Payload

def w9Msg : EDIMessage := { header := w9Hdr, body := EDIBody.fromBytes (strLit "REF|1") }

/-- A header whose message id carries a leading space. -/
def ce2Hdr : EDIHeader := { testHdr with messageId := strLit " A" }

/-- 104-byte message whose 4-byte length prefix (0xFFFFFFFF) far exceeds the
10 MiB cap. -/
def ce7Data : List Nat := (EDIHeader.toBytes testHdr).getD [] ++ [255, 255, 255, 255]

def ce4Employee : EmployeeData := { name := strLit "KIM", residentNo := strLit "8001011234567" }

/-- Submission with a 10-character but checksum-invalid business number. -/
def ce4Data : SubmitAcquisitionData :=
  { company := { businessNo := strLit "1234567890", workplaceNo := strLit "1234567890123" },
    employee := ce4Employee, acquisition := {} }

/-- Submission with a 9-digit business number. -/
def ce4Data9 : SubmitAcquisitionData :=
  { company := { businessNo := strLit "123456789", workplaceNo := strLit "1234567890123" },
    employee := ce4Employee, acquisition := {} }

/-- Scenario 2: employment-insurance loss, restructuring (code 14),
involuntary. -/
def w8Data : SubmitLossData :=
  { company := { businessNo := strLit "1234567891", workplaceNo := strLit "1234567890123" },
    employee := ce4Employee,
    loss := { reasonCode := strLit "14", isVoluntary := false,
              date := strLit "2026-01-15", finalIncome := 3500000 } }

/-! # Theorems and claim results -/

lemma except_bind_ok {ε α β : Type} (a : α) (f : α → Except ε β) :
    (Except.ok a : Except ε α) >>= f = f a := rfl

lemma except_bind_error {ε α β : Type} (e : ε) (f : α → Except ε β) :
    (Except.error e : Except ε α) >>= f = (.error e : Except ε β) := rfl

section PaddingProofs

open PKCS7Padding

lemma pad_paddingLen_pos (B : Nat) (d : List Nat) (hB : 1 ≤ B) :
    1 ≤ B - d.length % B := by
  have : d.length % B < B := Nat.mod_lt _ (by omega)
  omega

lemma pad_length (B : Nat) (d : List Nat) :
    (pad B d).length = d.length + (B - d.length % B) := by
  simp [pad]

lemma pad_length_mod (B : Nat) (d : List Nat) (hB : 1 ≤ B) :
    (pad B d).length % B = 0 := by
  rw [pad_length]
  have hlt : d.length % B < B := Nat.mod_lt _ (by omega)
  have hdm := Nat.div_add_mod d.length B
  have h1 : d.length + (B - d.length % B) = B * (d.length / B) + B := by omega
  have h2 : B * (d.length / B) + B = B * (d.length / B + 1) := by ring
  rw [h1, h2]
  exact Nat.mul_mod_right _ _

lemma pad_eq_concat (B : Nat) (d : List Nat) (hB : 1 ≤ B) :
    pad B d = (d ++ List.replicate (B - d.length % B - 1) (B - d.length % B))
      ++ [B - d.length % B] := by
  have hk := pad_paddingLen_pos B d hB
  unfold pad
  rw [List.append_assoc]
  congr 1
  rw [← List.replicate_succ']
  congr 1
  omega

lemma pad_getLastD (B : Nat) (d : List Nat) (hB : 1 ≤ B) :
    (pad B d).getLastD 0 = B - d.length % B := by
  rw [pad_eq_concat B d hB]
  exact List.getLastD_concat _ _ _

lemma unpad_pad (B : Nat) (d : List Nat) (hB : 1 ≤ B) :
    unpad B (pad B d) = .ok d := by
  have hk := pad_paddingLen_pos B d hB
  have hlen := pad_length B d
  have hmod := pad_length_mod B d hB
  have hlast := pad_getLastD B d hB
  have hklt : d.length % B < B := Nat.mod_lt _ (by omega)
  have hdroplen : (pad B d).length - (B - d.length % B) = d.length := by omega
  unfold unpad
  rw [if_neg, if_neg (by omega), hlast, if_neg (by omega), hdroplen, if_pos]
  · congr 1
    unfold pad
    exact List.take_left _ _
  · unfold pad
    rw [List.drop_left]
    simp
  · intro hnil
    have := congrArg List.length hnil
    simp [hlen] at this
    omega

lemma unpad_ok_iff (B : Nat) (d : List Nat) (hB : 1 ≤ B) :
    (∃ out, unpad B d = .ok out) ↔
      (d ≠ [] ∧ d.length % B = 0 ∧ 1 ≤ d.getLastD 0 ∧ d.getLastD 0 ≤ B ∧
        ∀ c ∈ d.drop (d.length - d.getLastD 0), c = d.getLastD 0) := by
  unfold unpad
  split_ifs with h1 h2 h3 h4
  · constructor
    · rintro ⟨out, hout⟩; cases hout
    · rintro ⟨hne, -⟩; exact absurd h1 hne
  · constructor
    · rintro ⟨out, hout⟩; cases hout
    · rintro ⟨-, hmod, -⟩; exact absurd hmod h2
  · constructor
    · rintro ⟨out, hout⟩; cases hout
    · rintro ⟨-, -, hge, hle, -⟩; omega
  · simp only [List.all_eq_true, beq_iff_eq] at h4
    constructor
    · intro _
      exact ⟨h1, by omega, by omega, by omega, h4⟩
    · intro _; exact ⟨_, rfl⟩
  · simp only [List.all_eq_true, beq_iff_eq, not_forall] at h4
    constructor
    · rintro ⟨out, hout⟩; cases hout
    · rintro ⟨-, -, -, -, hall⟩
      obtain ⟨c, hc, hcne⟩ := h4
      exact absurd (hall c hc) hcne

end PaddingProofs

/-- C3: PKCS#7 padding laws.  For every byte string `d` and admissible block
size `B` (`1 ≤ B ≤ 255`, the constructor's contract): `unpad (pad d) = d`,
`len (pad d)` is a multiple of `B`, the number of padding bytes added lies
between 1 and `B`, and `unpad` succeeds exactly on non-empty inputs whose
length is a multiple of `B`, whose last byte `k` satisfies `1 ≤ k ≤ B`, and
whose final `k` bytes all equal `k`. -/
theorem pkcs7_padding_laws (B : Nat) (d d2 : List Nat) (hB1 : 1 ≤ B) (hB2 : B ≤ 255) :
    PKCS7Padding.unpad B (PKCS7Padding.pad B d) = .ok d
    ∧ (PKCS7Padding.pad B d).length % B = 0
    ∧ 1 ≤ (PKCS7Padding.pad B d).length - d.length
    ∧ (PKCS7Padding.pad B d).length - d.length ≤ B
    ∧ ((∃ out, PKCS7Padding.unpad B d2 = .ok out) ↔
        (d2 ≠ [] ∧ d2.length % B = 0 ∧ 1 ≤ d2.getLastD 0 ∧ d2.getLastD 0 ≤ B ∧
          ∀ c ∈ d2.drop (d2.length - d2.getLastD 0), c = d2.getLastD 0)) := by
  refine ⟨unpad_pad B d hB1, pad_length_mod B d hB1, ?_, ?_, unpad_ok_iff B d2 hB1⟩
  · rw [pad_length]
    have := pad_paddingLen_pos B d hB1
    omega
  · rw [pad_length]
    omega

/-- Witness for C3 at `B = 16`, `d = "DATA"`, `d2 = pad("X")`. -/
theorem pkcs7_padding_laws_witness :
    PKCS7Padding.unpad 16 (PKCS7Padding.pad 16 (strLit "DATA")) = .ok (strLit "DATA")
    ∧ (PKCS7Padding.pad 16 (strLit "DATA")).length % 16 = 0
    ∧ 1 ≤ (PKCS7Padding.pad 16 (strLit "DATA")).length - (strLit "DATA").length
    ∧ (PKCS7Padding.pad 16 (strLit "DATA")).length - (strLit "DATA").length ≤ 16
    ∧ ((∃ out, PKCS7Padding.unpad 16 (PKCS7Padding.pad 16 (strLit "X")) = .ok out) ↔
        (PKCS7Padding.pad 16 (strLit "X") ≠ [] ∧
          (PKCS7Padding.pad 16 (strLit "X")).length % 16 = 0 ∧
          1 ≤ (PKCS7Padding.pad 16 (strLit "X")).getLastD 0 ∧
          (PKCS7Padding.pad 16 (strLit "X")).getLastD 0 ≤ 16 ∧
          ∀ c ∈ (PKCS7Padding.pad 16 (strLit "X")).drop
              ((PKCS7Padding.pad 16 (strLit "X")).length -
                (PKCS7Padding.pad 16 (strLit "X")).getLastD 0),
            c = (PKCS7Padding.pad 16 (strLit "X")).getLastD 0)) :=
  pkcs7_padding_laws 16 (strLit "DATA") (PKCS7Padding.pad 16 (strLit "X"))
    (by decide) (by decide)

/-- C3 counterexample to the spec's literal law `B ≤ len(pad(d)) − len(d) ≤ B`:
with `B = 16` and a 1-byte input, `pad` adds 15 bytes, not 16. -/
theorem pkcs7_padding_spec_law_false :
    (PKCS7Padding.pad 16 (strLit "A")).length - (strLit "A").length = 15
    ∧ ¬(16 ≤ (PKCS7Padding.pad 16 (strLit "A")).length - (strLit "A").length) := by
  decide

lemma business_checksum_zip_eq (ds : List Nat) (h : ds.length = 10) :
    ((([1, 3, 7, 1, 3, 7, 1, 3, 5] : List Nat).zip (ds.take 9)).map
        (fun p => p.1 * p.2)).sum
      + ([1, 3, 7, 1, 3, 7, 1, 3, 5] : List Nat).getD 8 0 * ds.getD 8 0 / 10 =
    1 * ds.getD 0 0 + 3 * ds.getD 1 0 + 7 * ds.getD 2 0 + 1 * ds.getD 3 0 +
      3 * ds.getD 4 0 + 7 * ds.getD 5 0 + 1 * ds.getD 6 0 + 3 * ds.getD 7 0 +
      5 * ds.getD 8 0 + 5 * ds.getD 8 0 / 10 := by
  match ds, h with
  | [d0, d1, d2, d3, d4, d5, d6, d7, d8, d9], _ =>
    simp [List.zip]
    omega

/-- C5: `validate_business_number` accepts exactly the strings whose cleaned
form (dashes and whitespace removed) is 10 ASCII digits satisfying the
claim's weighted checksum law; in particular anything whose cleaned form has
9 digits is rejected. -/
theorem validate_business_number_correct (s : PyStr) :
    (validateBusinessNumber s = true ↔
      (pyIsDigit (cleanNumber s) = true ∧ (cleanNumber s).length = 10 ∧
        specBusinessChecksumOk ((cleanNumber s).map (fun c => c - 48))))
    ∧ ((cleanNumber s).length = 9 → validateBusinessNumber s = false) := by
  constructor
  · by_cases hd : pyIsDigit (cleanNumber s) = true
    · by_cases hl : (cleanNumber s).length = 10
      · have hmap : ((cleanNumber s).map (fun c => c - 48)).length = 10 := by
          simpa using hl
        have hzip := business_checksum_zip_eq _ hmap
        simp only [validateBusinessNumber, businessCheckDigitOk, hd, hl]
        rw [hzip]
        simp [specBusinessChecksumOk, hd, hl, beq_iff_eq]
      · simp [validateBusinessNumber, hd, hl]
    · simp only [Bool.not_eq_true] at hd
      simp [validateBusinessNumber, hd]
  · intro h9
    have hne : (cleanNumber s).length ≠ 10 := by omega
    simp [validateBusinessNumber, hne]

/-- Witness for C5: the 9-digit business number "123456789" is rejected. -/
theorem validate_business_number_correct_witness :
    (cleanNumber (strLit "123456789")).length = 9
    ∧ validateBusinessNumber (strLit "123456789") = false :=
  ⟨by decide, (validate_business_number_correct (strLit "123456789")).2 (by decide)⟩

namespace EDIClient

lemma connect_fold (c k : Nat) (d : ℚ) :
    ((List.range k).foldl
      (fun (t : ConnectTrace) attempt =>
        ⟨t.attempts + 1,
          t.sleeps ++ (if attempt < c then [d * ((attempt : ℚ) + 1)] else [])⟩)
      ⟨0, []⟩) =
    ⟨k, (List.range (min c k)).map (fun i : ℕ => d * ((i : ℚ) + 1))⟩ := by
  induction k with
  | zero => simp
  | succ k ih =>
    rw [List.range_succ, List.foldl_append, ih]
    by_cases hk : k < c
    · have h1 : min c (k + 1) = min c k + 1 := by omega
      have h2 : min c k = k := by omega
      simp [hk, h1, h2, List.range_succ]
    · have h1 : min c (k + 1) = min c k := by omega
      simp [hk, h1]

lemma range_map_sum (n : Nat) (d : ℚ) :
    (((List.range n).map (fun i : ℕ => d * ((i : ℚ) + 1))).sum) =
      d * (n : ℚ) * ((n : ℚ) + 1) / 2 := by
  induction n with
  | zero => simp
  | succ n ih =>
    rw [List.range_succ, List.map_append, List.sum_append, ih]
    simp only [List.map_cons, List.map_nil, List.sum_cons, List.sum_nil]
    push_cast
    ring

end EDIClient

/-- C6 (amended): when every attempt fails, `connect` makes exactly
`max_retries` attempts and raises `ConnectionError`; a sleep of
`retry_delay * i` follows failed attempt `i` only when another attempt is
still to come (`i < max_retries`), so the sleeps are
`d*1, …, d*(max_retries-1)` and their total is
`d * (max_retries-1) * max_retries / 2` — not `d * (1+2+3)` for
`max_retries = 3`. -/
theorem connect_retry_exhaustion (m : Nat) (d : ℚ) :
    (EDIClient.connectAllFail m d).1.attempts = m
    ∧ (EDIClient.connectAllFail m d).1.sleeps =
        (List.range (m - 1)).map (fun i : ℕ => d * ((i : ℚ) + 1))
    ∧ (EDIClient.connectAllFail m d).1.sleeps.sum =
        d * ((m - 1 : ℕ) : ℚ) * (((m - 1 : ℕ) : ℚ) + 1) / 2
    ∧ (EDIClient.connectAllFail m d).2 = .error (.connectFailed m) := by
  have hfold := EDIClient.connect_fold (m - 1) m d
  have hmin : min (m - 1) m = m - 1 := by omega
  rw [hmin] at hfold
  refine ⟨?_, ?_, ?_, rfl⟩
  · simp [EDIClient.connectAllFail, hfold]
  · simp [EDIClient.connectAllFail, hfold]
  · simp only [EDIClient.connectAllFail, hfold]
    exact EDIClient.range_map_sum (m - 1) d

/-- C6 counterexample to the claimed cumulative sleep: with `max_retries = 3`
and `base_delay = 1`, the cumulative sleep is `1 + 2 = 3`, not
`1·(1+2+3) = 6`. -/
theorem connect_retry_sleep_counterexample :
    (EDIClient.connectAllFail 3 1).1.sleeps.sum = 3
    ∧ ((EDIClient.connectAllFail 3 1).1.sleeps.sum ≠ 1 * (1 + 2 + 3)) := by
  constructor
  · norm_num [EDIClient.connectAllFail, List.range_succ]
  · norm_num [EDIClient.connectAllFail, List.range_succ]

lemma ediBody_attemptParse_rawData (d : List Nat) (b : EDIBody)
    (hp : EDIBody.attemptParse d = some b) : b.rawData = d := by
  unfold EDIBody.attemptParse at hp
  cases ht : decodeEucKr d with
  | none => rw [ht] at hp; simp at hp
  | some text =>
    rw [ht] at hp
    simp only [Option.bind_eq_bind, Option.some_bind] at hp
    split at hp
    · rcases Option.bind_eq_some.mp hp with ⟨dt, hdt, hp2⟩
      split at hp2
      · rcases Option.bind_eq_some.mp hp2 with ⟨cnt, hcnt, hp3⟩
        simp only [pure, Option.some.injEq] at hp3
        rw [← hp3]
      · simp only [pure, Option.some.injEq] at hp2
        rw [← hp2]
    · split at hp
      · rcases Option.bind_eq_some.mp hp with ⟨cnt, hcnt, hp2⟩
        simp only [pure, Option.some.injEq] at hp2
        rw [← hp2]
      · simp only [pure, Option.some.injEq] at hp
        rw [← hp]

/-- Shared helper: `EDIBody.from_bytes` always records the input bytes in
`raw_data`, on the success path and on the exception fallback alike. -/
lemma ediBody_fromBytes_rawData (d : List Nat) : (EDIBody.fromBytes d).rawData = d := by
  unfold EDIBody.fromBytes
  cases hp : EDIBody.attemptParse d with
  | none => simp
  | some b => simpa using ediBody_attemptParse_rawData d b hp

/-- C10: `EDIBody.from_bytes` is total (any parse failure falls back to a
raw-data body, and even the success path stores the input in `raw_data`),
and for every non-empty input `d`, `from_bytes(d).to_bytes() = d`. -/
theorem ediBody_from_bytes_total_roundtrip (d : List Nat) :
    (EDIBody.fromBytes d).rawData = d
    ∧ (d ≠ [] → (EDIBody.fromBytes d).toBytes = some d) := by
  have hraw := ediBody_fromBytes_rawData d
  refine ⟨hraw, fun hne => ?_⟩
  unfold EDIBody.toBytes
  rw [hraw, if_pos hne]

/-- Witness for C10 at the query body `"REF|X"`. -/
theorem ediBody_from_bytes_total_roundtrip_witness :
    (EDIBody.fromBytes (strLit "REF|X")).rawData = strLit "REF|X"
    ∧ (EDIBody.fromBytes (strLit "REF|X")).toBytes = some (strLit "REF|X") :=
  ⟨(ediBody_from_bytes_total_roundtrip (strLit "REF|X")).1,
   (ediBody_from_bytes_total_roundtrip (strLit "REF|X")).2 (by decide)⟩

lemma defaultProtocolConfig_headerSize : defaultProtocolConfig.headerSize = 100 := rfl

lemma defaultProtocolConfig_prefixSize : defaultProtocolConfig.lengthPrefixSize = 4 := rfl

lemma defaultProtocolConfig_maxBody : defaultProtocolConfig.maxBodySize = 10485760 := rfl

lemma slice_100_104_length (data : List Nat) (h : 104 ≤ data.length) :
    (pySlice 100 104 data).length = 4 := by
  simp only [pySlice, List.length_take, List.length_drop]
  omega

/-- C9: when no signer object is configured on the protocol handler
(`self._signer` is `None`), `parse_message` leaves `signature_valid` at its
initial `True` — no verification happens — even for frames whose header has
the signed flag set. -/
theorem parse_message_no_signer_signature_valid (cfg : ProtocolConfig)
    (cipher : Option CBCCipher) (now : PyDateTime) (data : List Nat)
    (m : EDIMessage) (v : Bool)
    (h : parseMessage cfg cipher none now data = .ok (m, v)) : v = true := by
  unfold parseMessage at h
  cases h1 : parseStage1 cfg now data with
  | error e => rw [h1, except_bind_error] at h; cases h
  | ok hp =>
    rw [h1, except_bind_ok] at h
    cases h2 : decryptStage cipher hp.1 hp.2 with
    | error e => rw [h2, except_bind_error] at h; cases h
    | ok payload2 =>
      rw [h2, except_bind_ok] at h
      by_cases hs : hp.1.signed = true
      · rw [if_pos hs] at h
        cases h3 : signedSplit payload2 with
        | error e => rw [h3, except_bind_error] at h; cases h
        | ok bs =>
          rw [h3, except_bind_ok] at h
          have h4 : verifyStage none bs.1 bs.2 = .ok true := rfl
          rw [h4, except_bind_ok] at h
          simp only [pure, Except.pure, Except.ok.injEq, Prod.mk.injEq] at h
          exact h.2.symm
      · rw [if_neg hs] at h
        simp only [pure, Except.pure, Except.ok.injEq, Prod.mk.injEq] at h
        exact h.2.symm

set_option maxRecDepth 400000 in
/-- Witness for C9: a signed, unencrypted frame parsed with no signer
configured yields `signature_valid = true`. -/
theorem parse_message_no_signer_signature_valid_witness :
    parseMessage defaultProtocolConfig none none testDT w9Data = .ok (w9Msg, true)
    ∧ w9Msg.header.signed = true
    ∧ (true : Bool) = true :=
  ⟨by decide, by decide,
   parse_message_no_signer_signature_valid defaultProtocolConfig none testDT w9Data
     w9Msg true (by decide)⟩

/-- C7 (amended): both decoders reject inputs shorter than 104 bytes
("Message too short"), and the oversize check lives only in
`EDIProtocol.parse_message`: once the header parses, a length prefix above
`max_body_size` makes `parse_message` fail ("Payload too large"), while
`EDIMessage.from_bytes` performs no such check and can never return an
oversize error. -/
theorem message_decode_length_checks (now : PyDateTime) (cipher : Option CBCCipher)
    (signer : Option Signer) (data : List Nat) (hdr : EDIHeader) :
    (data.length < 104 →
      EDIMessage.fromBytes now data = .error .shortMessage
      ∧ parseMessage defaultProtocolConfig cipher signer now data = .error .shortMessage)
    ∧ (104 ≤ data.length →
        EDIHeader.fromBytes now (data.take 100) = some hdr →
        10485760 < u32read (pySlice 100 104 data) →
        parseMessage defaultProtocolConfig cipher signer now data = .error .oversizeBody)
    ∧ EDIMessage.fromBytes now data ≠ .error .oversizeBody := by
  refine ⟨fun hshort => ⟨?_, ?_⟩, fun hlen hhdr hbig => ?_, ?_⟩
  · unfold EDIMessage.fromBytes
    rw [if_pos hshort]
  · unfold parseMessage parseStage1
    simp only [defaultProtocolConfig_headerSize, defaultProtocolConfig_prefixSize,
      defaultProtocolConfig_maxBody]
    rw [if_pos (by omega), except_bind_error]
  · unfold parseMessage parseStage1
    simp only [defaultProtocolConfig_headerSize, defaultProtocolConfig_prefixSize,
      defaultProtocolConfig_maxBody]
    rw [if_neg (by omega), hhdr]
    unfold u32unpack
    simp only [show (100 : Nat) + 4 = 104 from rfl]
    rw [if_pos (slice_100_104_length data hlen)]
    dsimp only
    rw [if_pos hbig, except_bind_error]
  · intro hc
    unfold EDIMessage.fromBytes at hc
    split at hc
    · cases hc
    · split at hc
      · cases hc
      · cases hc

set_option maxRecDepth 400000 in
/-- Witness for C7: at `ce7Data` (104 bytes, prefix 0xFFFFFFFF),
`parse_message` rejects with the oversize error while `from_bytes` does not
produce one; and a 103-byte input is rejected as too short by both. -/
theorem message_decode_length_checks_witness :
    (104 ≤ ce7Data.length ∧ EDIHeader.fromBytes testDT (ce7Data.take 100) = some testHdr
      ∧ 10485760 < u32read (pySlice 100 104 ce7Data))
    ∧ parseMessage defaultProtocolConfig none none testDT ce7Data = .error .oversizeBody
    ∧ EDIMessage.fromBytes testDT ce7Data ≠ .error .oversizeBody
    ∧ EDIMessage.fromBytes testDT (List.replicate 103 32) = .error .shortMessage :=
  ⟨⟨by decide, by decide, by decide⟩,
   (message_decode_length_checks testDT none none ce7Data testHdr).2.1
     (by decide) (by decide) (by decide),
   (message_decode_length_checks testDT none none ce7Data testHdr).2.2,
   ((message_decode_length_checks testDT none none (List.replicate 103 32) testHdr).1
     (by decide)).1⟩

set_option maxRecDepth 400000 in
/-- C7 counterexample: `EDIMessage.from_bytes` accepts a message whose
4-byte length prefix (0xFFFFFFFF) exceeds the 10 MiB cap — the oversize
check is absent from the message decoder. -/
theorem message_from_bytes_no_oversize_check :
    ce7Data.length = 104
    ∧ u32read (pySlice 100 104 ce7Data) = 4294967295
    ∧ 10485760 < u32read (pySlice 100 104 ce7Data)
    ∧ (EDIMessage.fromBytes testDT ce7Data).isOk = true := by
  refine ⟨by decide, by decide, by decide, by decide⟩

/-- C1 (amended): on the signed path, once the payload is decrypted and the
two length prefixes are well-formed and a certificate is loaded, parsing
raises nothing, surfaces the body (unmutated, as parsed from exactly the
body slice) and reports `signature_valid` exactly as `verify_raw` decides
it; `verify_raw` itself never raises when a certificate is loaded. -/
theorem parse_message_surfaces_body_and_flag (cfg : ProtocolConfig)
    (cipher : Option CBCCipher) (s : Signer) (now : PyDateTime) (data : List Nat)
    (hdr : EDIHeader) (payload payload2 bodyData sig : List Nat)
    (h1 : parseStage1 cfg now data = .ok (hdr, payload))
    (h2 : decryptStage cipher hdr payload = .ok payload2)
    (h3 : hdr.signed = true)
    (h4 : signedSplit payload2 = .ok (bodyData, sig))
    (h5 : s.hasCert = true) :
    parseMessage cfg cipher (some s) now data =
      .ok ({ header := hdr, body := EDIBody.fromBytes bodyData }, s.verify bodyData sig)
    ∧ Signer.verifyRaw s bodyData sig = .ok (s.verify bodyData sig)
    ∧ (EDIBody.fromBytes bodyData).rawData = bodyData := by
  have hvr : Signer.verifyRaw s bodyData sig = .ok (s.verify bodyData sig) := by
    unfold Signer.verifyRaw
    rw [if_pos h5]
  refine ⟨?_, hvr, ediBody_fromBytes_rawData bodyData⟩
  unfold parseMessage
  rw [h1, except_bind_ok]
  dsimp only
  rw [h2, except_bind_ok, if_pos h3, h4, except_bind_ok]
  dsimp only
  unfold verifyStage
  dsimp only
  rw [hvr, except_bind_ok]
  rfl

set_option maxRecDepth 400000 in
/-- Witness for C1: a signed frame parsed with a rejecting verifier — the
message comes back intact with `signature_valid = false` and no exception. -/
theorem parse_message_surfaces_body_and_flag_witness :
    parseMessage defaultProtocolConfig none (some wSigner) testDT w9Data =
      .ok ({ header := w9Hdr, body := EDIBody.fromBytes (strLit "REF|1") }, false)
    ∧ Signer.verifyRaw wSigner (strLit "REF|1") [] = .ok false
    ∧ (EDIBody.fromBytes (strLit "REF|1")).rawData = strLit "REF|1" :=
  parse_message_surfaces_body_and_flag defaultProtocolConfig none wSigner testDT
    w9Data w9Hdr w9Payload w9Payload (strLit "REF|1") []
    (by decide) (by decide) (by decide) (by decide) (by decide)

set_option maxRecDepth 400000 in
/-- C1 counterexample: flip one byte of the encrypted payload of a framed
message (the last byte of the second-to-last ciphertext block) and
`parse_message` raises `BadPadding` instead of returning
`(message, signature_valid=false)`. -/
theorem parse_message_tampered_raises_bad_padding :
    (frameMessage defaultProtocolConfig (some ceCipher) (some ceSigner) ceMsg).isSome = true
    ∧ ceFramed.length = 136
    ∧ ceTampered = ceFramed.set 119 ((ceFramed.getD 119 0) ^^^ 128)
    ∧ parseMessage defaultProtocolConfig (some ceCipher) (some ceSigner) testDT ceTampered
        = .error .badPadding := by
  refine ⟨by decide, by decide, rfl, by decide⟩

lemma leadsWith_refl_append (x t : PyStr) : leadsWith x (x ++ t) = true := by
  induction x with
  | nil => rfl
  | cons a as ih => simp [leadsWith, ih]

lemma containsSub_of_head (x t : PyStr) : containsSub (x ++ t) x = true := by
  unfold containsSub
  apply List.any_eq_true.mpr
  refine ⟨0, ?_, ?_⟩
  · simp [List.mem_range]
  · simpa using leadsWith_refl_append x t

lemma pyJoin_cons_ex (sep : PyStr) (x : PyStr) (xs : List PyStr) :
    ∃ t, pyJoin sep (x :: xs) = x ++ t := by
  cases xs with
  | nil => exact ⟨[], by simp [pyJoin, List.intercalate]⟩
  | cons y ys =>
    refine ⟨sep ++ List.intercalate sep (y :: ys), ?_⟩
    simp [pyJoin, List.intercalate, List.intersperse]

/-- C4 (amended): provider validation checks only presence and a
10-character length for the business number (no checksum): a present
business number of the wrong length — in particular 9 digits — fails
synchronously with `VALIDATION_ERROR` and the Korean message "사업자등록번호는
10자리여야 합니다"; any submission passing the presence/length checks is
handed to the wire, checksum-valid or not. -/
theorem ei_submit_validation_behavior (messageId : PyStr) (now : PyDateTime)
    (data : SubmitAcquisitionData) :
    (validateCompanyData data.company ++ validateEmployeeData data.employee = [] ↔
      (data.company.businessNo ≠ [] ∧ data.company.businessNo.length = 10 ∧
        data.company.workplaceNo ≠ [] ∧ data.employee.name ≠ [] ∧
        data.employee.residentNo ≠ [] ∧
        (data.employee.residentNo.filter (fun c => c != 45)).length = 13))
    ∧ (data.company.businessNo ≠ [] → data.company.businessNo.length ≠ 10 →
        (eiSubmitAcquisition messageId now data).reachesWire = false ∧
        (eiSubmitAcquisition messageId now data).errCode = strLit "VALIDATION_ERROR" ∧
        containsSub (eiSubmitAcquisition messageId now data).errMsg
          (strLit "사업자등록번호는 10자리여야 합니다") = true)
    ∧ (validateCompanyData data.company ++ validateEmployeeData data.employee = [] →
        eiSubmitAcquisition messageId now data = .sendsToWire
          (EDIMessage.createSubmitMessage messageId now data.company.workplaceNo .ei
            .eiAcquisition [eiAcquisitionRecord data.employee data.acquisition]
            data.company.workplaceNo data.company.businessNo)) := by
  refine ⟨?_, fun hne hlen => ?_, fun hok => ?_⟩
  · unfold validateCompanyData validateEmployeeData
    split_ifs <;> simp_all
  · have hcd : validateCompanyData data.company ++ validateEmployeeData data.employee =
        strLit "사업자등록번호는 10자리여야 합니다" ::
          ((if data.company.workplaceNo = [] then [strLit "사업장관리번호가 누락되었습니다"]
            else []) ++ validateEmployeeData data.employee) := by
      unfold validateCompanyData
      rw [if_neg hne, if_pos hlen]
      simp
    unfold eiSubmitAcquisition
    rw [hcd, if_pos (List.cons_ne_nil _ _)]
    refine ⟨rfl, rfl, ?_⟩
    obtain ⟨t, ht⟩ := pyJoin_cons_ex (strLit "; ")
      (strLit "사업자등록번호는 10자리여야 합니다")
      ((if data.company.workplaceNo = [] then [strLit "사업장관리번호가 누락되었습니다"]
        else []) ++ validateEmployeeData data.employee)
    simp only [SubmitOutcome.errMsg, ht]
    exact containsSub_of_head _ _
  · unfold eiSubmitAcquisition
    rw [if_neg (by simp [hok])]

/-- Witness for C4's amended statement: the 9-digit submission fails
synchronously with `VALIDATION_ERROR` and the Korean length message, and a
fully valid submission reaches the wire. -/
theorem ei_submit_validation_behavior_witness :
    ((eiSubmitAcquisition (strLit "MSG") testDT ce4Data9).reachesWire = false ∧
      (eiSubmitAcquisition (strLit "MSG") testDT ce4Data9).errCode =
        strLit "VALIDATION_ERROR" ∧
      containsSub (eiSubmitAcquisition (strLit "MSG") testDT ce4Data9).errMsg
        (strLit "사업자등록번호는 10자리여야 합니다") = true)
    ∧ eiSubmitAcquisition (strLit "MSG") testDT ce4Data = .sendsToWire
        (EDIMessage.createSubmitMessage (strLit "MSG") testDT ce4Data.company.workplaceNo .ei
          .eiAcquisition [eiAcquisitionRecord ce4Data.employee ce4Data.acquisition]
          ce4Data.company.workplaceNo ce4Data.company.businessNo) :=
  ⟨(ei_submit_validation_behavior (strLit "MSG") testDT ce4Data9).2.1
      (by decide) (by decide),
   (ei_submit_validation_behavior (strLit "MSG") testDT ce4Data).2.2 (by decide)⟩

/-- C4 counterexample: the checksum is never enforced — the 10-character but
checksum-invalid business number "1234567890" passes validation and the
submission reaches the wire; and the 9-digit failure's message is the Korean
"…10자리…", which does not contain the substring "10 digits". -/
theorem ei_submit_checksum_not_enforced :
    validateBusinessNumber (strLit "1234567890") = false
    ∧ (eiSubmitAcquisition (strLit "MSG") testDT ce4Data).reachesWire = true
    ∧ (eiSubmitAcquisition (strLit "MSG") testDT ce4Data9).reachesWire = false
    ∧ (eiSubmitAcquisition (strLit "MSG") testDT ce4Data9).errCode =
        strLit "VALIDATION_ERROR"
    ∧ containsSub (eiSubmitAcquisition (strLit "MSG") testDT ce4Data9).errMsg
        (strLit "10 digits") = false
    ∧ containsSub (eiSubmitAcquisition (strLit "MSG") testDT ce4Data9).errMsg
        (strLit "10자리") = true := by
  refine ⟨by decide, by decide, by decide, by decide, by decide, by decide⟩

/-- C8: the static loss-reason table drives `benefit_eligible` — codes
11–16 and 31–33 are eligible, 21–23 are not, regardless of the voluntary
flag — and a loss submission that passes validation is sent with document
type `EI_LOSS` (code "3002") and a record whose `benefit_eligible` field is
"Y" exactly when the mapped reason is eligible; in particular reason code
"14" with `is_voluntary = false` yields "Y". -/
theorem ei_loss_benefit_eligibility (v : Bool) (messageId : PyStr) (now : PyDateTime)
    (data : SubmitLossData)
    (herr : validateCompanyData data.company ++ validateEmployeeData data.employee = []) :
    ((mapLossReason (strLit "11") v).eligible = true
      ∧ (mapLossReason (strLit "12") v).eligible = true
      ∧ (mapLossReason (strLit "13") v).eligible = true
      ∧ (mapLossReason (strLit "14") v).eligible = true
      ∧ (mapLossReason (strLit "15") v).eligible = true
      ∧ (mapLossReason (strLit "16") v).eligible = true
      ∧ (mapLossReason (strLit "31") v).eligible = true
      ∧ (mapLossReason (strLit "32") v).eligible = true
      ∧ (mapLossReason (strLit "33") v).eligible = true
      ∧ (mapLossReason (strLit "21") v).eligible = false
      ∧ (mapLossReason (strLit "22") v).eligible = false
      ∧ (mapLossReason (strLit "23") v).eligible = false)
    ∧ eiSubmitLoss messageId now data = .sendsToWire
        (EDIMessage.createSubmitMessage messageId now data.company.workplaceNo .ei .eiLoss
          [eiLossRecord data.employee data.loss] data.company.workplaceNo
          data.company.businessNo)
    ∧ (EDIMessage.createSubmitMessage messageId now data.company.workplaceNo .ei .eiLoss
        [eiLossRecord data.employee data.loss] data.company.workplaceNo
        data.company.businessNo).body.documentType = .eiLoss
    ∧ DocumentType.value .eiLoss = strLit "3002"
    ∧ (eiLossRecord data.employee data.loss).getD 9 [] =
        (if (mapLossReason data.loss.reasonCode data.loss.isVoluntary).eligible then
          strLit "Y" else strLit "N")
    ∧ (data.loss.reasonCode = strLit "14" → data.loss.isVoluntary = false →
        (eiLossRecord data.employee data.loss).getD 9 [] = strLit "Y") := by
  refine ⟨by cases v <;> decide, ?_, rfl, by decide, rfl, fun h14 hvol => ?_⟩
  · unfold eiSubmitLoss
    rw [if_neg (by simp [herr])]
  · show (if (mapLossReason data.loss.reasonCode data.loss.isVoluntary).eligible then
      strLit "Y" else strLit "N") = strLit "Y"
    rw [h14, hvol]
    decide

/-- Witness for C8 at Scenario 2: reason code "14" (restructuring),
involuntary — the outgoing record carries `benefit_eligible = "Y"` and the
message uses document code 3002. -/
theorem ei_loss_benefit_eligibility_witness :
    eiSubmitLoss (strLit "MSG") testDT w8Data = .sendsToWire
      (EDIMessage.createSubmitMessage (strLit "MSG") testDT w8Data.company.workplaceNo .ei
        .eiLoss [eiLossRecord w8Data.employee w8Data.loss] w8Data.company.workplaceNo
        w8Data.company.businessNo)
    ∧ (eiLossRecord w8Data.employee w8Data.loss).getD 9 [] = strLit "Y"
    ∧ DocumentType.value .eiLoss = strLit "3002" :=
  ⟨(ei_loss_benefit_eligibility false (strLit "MSG") testDT w8Data (by decide)).2.1,
   (ei_loss_benefit_eligibility false (strLit "MSG") testDT w8Data (by decide)).2.2.2.2.2
     (by decide) (by decide),
   (ei_loss_benefit_eligibility false (strLit "MSG") testDT w8Data (by decide)).2.2.2.1⟩

/-! ### C2 machinery: ASCII text through the charset, strip/ljust laws -/

lemma encodeCharEucKr_ascii (a : Nat) (ha : a < 128) : encodeCharEucKr a = some [a] := by
  simp [encodeCharEucKr, ha]

lemma encodeEucKr_ascii (s : PyStr) (hs : asciiStr s) : encodeEucKr s = some s := by
  induction s with
  | nil => rfl
  | cons a t ih =>
    have ha : a < 128 := hs a (List.mem_cons_self a t)
    have ihe := ih (fun c hc => hs c (List.mem_cons_of_mem a hc))
    unfold encodeEucKr at ihe ⊢
    obtain ⟨bs, hm, hfl⟩ : ∃ bs, t.mapM encodeCharEucKr = some bs ∧ bs.flatten = t := by
      cases hm : t.mapM encodeCharEucKr with
      | none => rw [hm] at ihe; simp at ihe
      | some bs =>
        rw [hm] at ihe
        simp at ihe
        exact ⟨bs, rfl, ihe⟩
    rw [List.mapM_cons, hm, encodeCharEucKr_ascii a ha]
    simp [hfl]

lemma decodeIgnoreEucKr_ascii (s : List Nat) (hs : asciiStr s) : decodeIgnoreEucKr s = s := by
  induction s with
  | nil => rfl
  | cons a t ih =>
    have ha : a < 128 := hs a (List.mem_cons_self a t)
    have iht := ih (fun c hc => hs c (List.mem_cons_of_mem a hc))
    cases t with
    | nil => simp [decodeIgnoreEucKr, ha]
    | cons b2 rest => simp [decodeIgnoreEucKr, ha, iht]

lemma asciiStr_append {s t : PyStr} (hs : asciiStr s) (ht : asciiStr t) :
    asciiStr (s ++ t) := by
  intro c hc
  rcases List.mem_append.mp hc with h | h
  · exact hs c h
  · exact ht c h

lemma asciiStr_replicate32 (n : Nat) : asciiStr (List.replicate n 32) := by
  intro c hc
  rw [List.eq_of_mem_replicate hc]
  omega

lemma asciiStr_ljust (n : Nat) {s : PyStr} (hs : asciiStr s) : asciiStr (ljust n s) :=
  asciiStr_append hs (asciiStr_replicate32 _)

lemma ljust_length_of_le (n : Nat) (s : PyStr) (h : s.length ≤ n) :
    (ljust n s).length = n := by
  simp [ljust]
  omega

lemma take_ljust (n : Nat) (s : PyStr) (h : s.length ≤ n) :
    (ljust n s).take n = ljust n s :=
  List.take_of_length_le (le_of_eq (ljust_length_of_le n s h))

lemma dropWhile_eq_self_of_all (p : Nat → Bool) (l : List Nat)
    (h : ∀ c ∈ l, p c = false) : l.dropWhile p = l := by
  cases l with
  | nil => rfl
  | cons a t => rw [List.dropWhile_cons, if_neg (by simp [h a (List.mem_cons_self a t)])]

lemma pyStrip_no_space (s : PyStr) (h : ∀ c ∈ s, isSpaceCp c = false) : pyStrip s = s := by
  unfold pyStrip dropTrailWhile
  rw [dropWhile_eq_self_of_all _ _ h,
    dropWhile_eq_self_of_all _ _ (fun c hc => h c (List.mem_reverse.mp hc)),
    List.reverse_reverse]

lemma dropWhile_lead_eq_self (s : PyStr) (h : pyStrip s = s) :
    s.dropWhile isSpaceCp = s := by
  have h2 : (pyStrip s).length ≤ (s.dropWhile isSpaceCp).length := by
    unfold pyStrip dropTrailWhile
    simpa using (List.dropWhile_suffix (l := (s.dropWhile isSpaceCp).reverse)
      isSpaceCp).length_le
  rw [h] at h2
  have h3 : (s.dropWhile isSpaceCp).length = s.length :=
    le_antisymm (List.dropWhile_suffix _).length_le h2
  exact (List.dropWhile_suffix _).eq_of_length h3

lemma dropTrail_eq_self (s : PyStr) (h : pyStrip s = s) :
    dropTrailWhile isSpaceCp s = s := by
  have hl := dropWhile_lead_eq_self s h
  unfold pyStrip at h
  rw [hl] at h
  exact h

lemma dropWhile_all_sat_append (p : Nat → Bool) (l1 l2 : List Nat)
    (h : ∀ c ∈ l1, p c = true) : (l1 ++ l2).dropWhile p = l2.dropWhile p := by
  induction l1 with
  | nil => rfl
  | cons a t ih =>
    rw [List.cons_append, List.dropWhile_cons, if_pos (h a (List.mem_cons_self a t))]
    exact ih (fun c hc => h c (List.mem_cons_of_mem a hc))

lemma pyStrip_append_spaces (s : PyStr) (n : Nat) (h : pyStrip s = s) :
    pyStrip (s ++ List.replicate n 32) = s := by
  have hd := dropWhile_lead_eq_self s h
  have ht := dropTrail_eq_self s h
  unfold pyStrip
  cases s with
  | nil =>
    rw [List.nil_append]
    have hrep : List.dropWhile isSpaceCp (List.replicate n 32) = [] := by
      have hall := dropWhile_all_sat_append isSpaceCp (List.replicate n 32) []
        (fun c hc => by rw [List.eq_of_mem_replicate hc]; rfl)
      simpa using hall
    rw [hrep]
    rfl
  | cons a t =>
    have hpa : isSpaceCp a = false := by
      by_cases hc : isSpaceCp a = true
      · exfalso
        rw [List.dropWhile_cons, if_pos hc] at hd
        have hlen := congrArg List.length hd
        have hle : (t.dropWhile isSpaceCp).length ≤ t.length :=
          (List.dropWhile_suffix _).length_le
        simp at hlen
        omega
      · simpa using hc
    rw [List.cons_append, List.dropWhile_cons, if_neg (by simp [hpa])]
    unfold dropTrailWhile
    rw [show (a :: (t ++ List.replicate n 32)).reverse =
        List.replicate n 32 ++ (a :: t).reverse from by simp,
      dropWhile_all_sat_append isSpaceCp _ _
        (fun c hc => by rw [List.eq_of_mem_replicate hc]; rfl)]
    have hrev : (a :: t).reverse.dropWhile isSpaceCp = (a :: t).reverse := by
      have hc := congrArg List.reverse ht
      unfold dropTrailWhile at hc
      rw [List.reverse_reverse] at hc
      exact hc
    rw [hrev, List.reverse_reverse]

lemma natToStrAux_digits : ∀ fuel n, n < fuel →
    ∀ c ∈ natToStrAux fuel n, 48 ≤ c ∧ c ≤ 57 := by
  intro fuel
  induction fuel with
  | zero => intro n hn; omega
  | succ fuel ih =>
    intro n hn c hc
    unfold natToStrAux at hc
    split at hc
    · simp at hc
      omega
    · rcases List.mem_append.mp hc with h | h
      · exact ih (n / 10) (by omega) c h
      · simp at h
        have : n % 10 < 10 := Nat.mod_lt _ (by omega)
        omega

lemma natToStrAux_ne_nil : ∀ fuel n, n < fuel → natToStrAux fuel n ≠ [] := by
  intro fuel
  cases fuel with
  | zero => intro n hn; omega
  | succ fuel =>
    intro n hn
    unfold natToStrAux
    split
    · simp
    · simp

lemma parseNatDigits_append_digit (xs : PyStr) (d : Nat) :
    parseNatDigits (xs ++ [d]) = parseNatDigits xs * 10 + (d - 48) := by
  simp [parseNatDigits, List.foldl_append]

lemma natToStrAux_parse : ∀ fuel n, n < fuel →
    parseNatDigits (natToStrAux fuel n) = n := by
  intro fuel
  induction fuel with
  | zero => intro n hn; omega
  | succ fuel ih =>
    intro n hn
    unfold natToStrAux
    split
    · simp [parseNatDigits]
    · rw [parseNatDigits_append_digit, ih (n / 10) (by omega)]
      omega

lemma natToStrAux_length_le : ∀ fuel n k, n < fuel → 1 ≤ k → n < 10 ^ k →
    (natToStrAux fuel n).length ≤ k := by
  intro fuel
  induction fuel with
  | zero => intro n k hn; omega
  | succ fuel ih =>
    intro n k hn hk hnk
    unfold natToStrAux
    split
    · simpa using hk
    · rename_i hge
      have hk2 : 2 ≤ k := by
        by_contra hc
        have hk1 : k = 1 := by omega
        rw [hk1] at hnk
        simp at hnk
        omega
      have hdiv : n / 10 < 10 ^ (k - 1) := by
        rw [Nat.div_lt_iff_lt_mul (by omega)]
        calc n < 10 ^ k := hnk
        _ = 10 ^ (k - 1) * 10 := by
          rw [← Nat.pow_succ]
          congr 1
          omega
      have := ih (n / 10) (k - 1) (by omega) (by omega) hdiv
      simp only [List.length_append, List.length_cons, List.length_nil]
      omega

lemma natToStr_digits (n : Nat) : ∀ c ∈ natToStr n, 48 ≤ c ∧ c ≤ 57 :=
  natToStrAux_digits (n + 1) n (by omega)

lemma natToStr_ne_nil (n : Nat) : natToStr n ≠ [] :=
  natToStrAux_ne_nil (n + 1) n (by omega)

lemma natToStr_parse (n : Nat) : parseNatDigits (natToStr n) = n :=
  natToStrAux_parse (n + 1) n (by omega)

lemma natToStr_length_le (n k : Nat) (hk : 1 ≤ k) (h : n < 10 ^ k) :
    (natToStr n).length ≤ k :=
  natToStrAux_length_le (n + 1) n k (by omega) hk h

lemma zfill_digits_eq (n : Nat) (s : PyStr) (hs : ∀ c ∈ s, 48 ≤ c ∧ c ≤ 57)
    (hne : s ≠ []) : zfill n s = List.replicate (n - s.length) 48 ++ s := by
  cases s with
  | nil => exact absurd rfl hne
  | cons a t =>
    have ha := hs a (List.mem_cons_self a t)
    unfold zfill
    split
    · rename_i heq
      rw [List.cons.injEq] at heq
      omega
    · rename_i heq
      rw [List.cons.injEq] at heq
      omega
    · rfl

lemma parseNatDigits_replicate_zero (j : Nat) (s : PyStr) :
    parseNatDigits (List.replicate j 48 ++ s) = parseNatDigits s := by
  induction j with
  | zero => rfl
  | succ j ih =>
    rw [List.replicate_succ, List.cons_append]
    show List.foldl _ (0 * 10 + (48 - 48)) _ = _
    simpa [parseNatDigits] using ih

/-- The zero-padded digit rendering `str(x).zfill(k)` of `x < 10^k`. -/
lemma zfill_natToStr_spec (k x : Nat) (hk : 1 ≤ k) (hx : x < 10 ^ k) :
    (zfill k (natToStr x)).length = k
    ∧ (∀ c ∈ zfill k (natToStr x), 48 ≤ c ∧ c ≤ 57)
    ∧ parseNatDigits (zfill k (natToStr x)) = x := by
  have hz := zfill_digits_eq k (natToStr x) (natToStr_digits x) (natToStr_ne_nil x)
  have hlen := natToStr_length_le x k hk hx
  refine ⟨?_, ?_, ?_⟩
  · rw [hz]
    simp
    omega
  · intro c hc
    rw [hz] at hc
    rcases List.mem_append.mp hc with h | h
    · rw [List.eq_of_mem_replicate h]
      omega
    · exact natToStr_digits x c h
  · rw [hz, parseNatDigits_replicate_zero, natToStr_parse]

lemma drop_block (q rest : List Nat) (n : Nat) (h : q.length = n) :
    (q ++ rest).drop n = rest := by
  rw [← h]
  exact List.drop_left q rest

lemma take_block (q rest : List Nat) (n : Nat) (h : q.length = n) :
    (q ++ rest).take n = q := by
  rw [← h]
  exact List.take_left q rest

lemma daysInMonth_le (y m : Nat) : daysInMonth y m ≤ 31 := by
  unfold daysInMonth
  split_ifs <;> omega

lemma fmt14_assoc (t : PyDateTime) :
    fmt14 t = zfill 4 (natToStr t.year) ++ (zfill 2 (natToStr t.month) ++
      (zfill 2 (natToStr t.day) ++ (zfill 2 (natToStr t.hour) ++
        (zfill 2 (natToStr t.minute) ++ zfill 2 (natToStr t.second))))) := by
  unfold fmt14
  simp [List.append_assoc]

lemma fmt14_length_valid (t : PyDateTime) (hv : t.Valid) : (fmt14 t).length = 14 := by
  obtain ⟨hy1, hy2, hm1, hm2, hd1, hd2, hh, hmi, hs, hms⟩ := hv
  have h10k4 : (10 : Nat) ^ 4 = 10000 := by norm_num
  have h10k2 : (10 : Nat) ^ 2 = 100 := by norm_num
  obtain ⟨lA, -, -⟩ := zfill_natToStr_spec 4 t.year (by omega) (by omega)
  obtain ⟨lB, -, -⟩ := zfill_natToStr_spec 2 t.month (by omega) (by omega)
  obtain ⟨lC, -, -⟩ := zfill_natToStr_spec 2 t.day (by omega)
    (by have := daysInMonth_le t.year t.month; omega)
  obtain ⟨lD, -, -⟩ := zfill_natToStr_spec 2 t.hour (by omega) (by omega)
  obtain ⟨lE, -, -⟩ := zfill_natToStr_spec 2 t.minute (by omega) (by omega)
  obtain ⟨lF, -, -⟩ := zfill_natToStr_spec 2 t.second (by omega) (by omega)
  rw [fmt14_assoc t]
  simp only [List.length_append]
  omega

lemma fmt14_digits_valid (t : PyDateTime) (hv : t.Valid) :
    ∀ c ∈ fmt14 t, 48 ≤ c ∧ c ≤ 57 := by
  obtain ⟨hy1, hy2, hm1, hm2, hd1, hd2, hh, hmi, hs, hms⟩ := hv
  have h10k4 : (10 : Nat) ^ 4 = 10000 := by norm_num
  have h10k2 : (10 : Nat) ^ 2 = 100 := by norm_num
  obtain ⟨-, dA, -⟩ := zfill_natToStr_spec 4 t.year (by omega) (by omega)
  obtain ⟨-, dB, -⟩ := zfill_natToStr_spec 2 t.month (by omega) (by omega)
  obtain ⟨-, dC, -⟩ := zfill_natToStr_spec 2 t.day (by omega)
    (by have := daysInMonth_le t.year t.month; omega)
  obtain ⟨-, dD, -⟩ := zfill_natToStr_spec 2 t.hour (by omega) (by omega)
  obtain ⟨-, dE, -⟩ := zfill_natToStr_spec 2 t.minute (by omega) (by omega)
  obtain ⟨-, dF, -⟩ := zfill_natToStr_spec 2 t.second (by omega) (by omega)
  intro c hc
  rw [fmt14_assoc t] at hc
  simp only [List.mem_append] at hc
  rcases hc with h | h | h | h | h | h
  · exact dA c h
  · exact dB c h
  · exact dC c h
  · exact dD c h
  · exact dE c h
  · exact dF c h

lemma parse14_fmt14 (t : PyDateTime) (hv : t.Valid) : parse14 (fmt14 t) = some t := by
  have hlen14 := fmt14_length_valid t hv
  have hdig := fmt14_digits_valid t hv
  obtain ⟨hy1, hy2, hm1, hm2, hd1, hd2, hh, hmi, hs, hms⟩ := hv
  have h10k4 : (10 : Nat) ^ 4 = 10000 := by norm_num
  have h10k2 : (10 : Nat) ^ 2 = 100 := by norm_num
  obtain ⟨lA, dA, pA⟩ := zfill_natToStr_spec 4 t.year (by omega) (by omega)
  obtain ⟨lB, dB, pB⟩ := zfill_natToStr_spec 2 t.month (by omega) (by omega)
  obtain ⟨lC, dC, pC⟩ := zfill_natToStr_spec 2 t.day (by omega)
    (by have := daysInMonth_le t.year t.month; omega)
  obtain ⟨lD, dD, pD⟩ := zfill_natToStr_spec 2 t.hour (by omega) (by omega)
  obtain ⟨lE, dE, pE⟩ := zfill_natToStr_spec 2 t.minute (by omega) (by omega)
  obtain ⟨lF, dF, pF⟩ := zfill_natToStr_spec 2 t.second (by omega) (by omega)
  have hsplit := fmt14_assoc t
  have hall : (fmt14 t).all isDigitCp = true := by
    rw [List.all_eq_true]
    intro c hc
    have := hdig c hc
    simp [isDigitCp]
    omega
  have e4 : (fmt14 t).drop 4 = zfill 2 (natToStr t.month) ++
      (zfill 2 (natToStr t.day) ++ (zfill 2 (natToStr t.hour) ++
        (zfill 2 (natToStr t.minute) ++ zfill 2 (natToStr t.second)))) := by
    rw [hsplit]
    exact drop_block _ _ _ lA
  have e6 : (fmt14 t).drop 6 = zfill 2 (natToStr t.day) ++
      (zfill 2 (natToStr t.hour) ++
        (zfill 2 (natToStr t.minute) ++ zfill 2 (natToStr t.second))) := by
    rw [show (6 : Nat) = 4 + 2 from rfl, ← List.drop_drop, e4]
    exact drop_block _ _ _ lB
  have e8 : (fmt14 t).drop 8 = zfill 2 (natToStr t.hour) ++
      (zfill 2 (natToStr t.minute) ++ zfill 2 (natToStr t.second)) := by
    rw [show (8 : Nat) = 6 + 2 from rfl, ← List.drop_drop, e6]
    exact drop_block _ _ _ lC
  have e10 : (fmt14 t).drop 10 = zfill 2 (natToStr t.minute) ++
      zfill 2 (natToStr t.second) := by
    rw [show (10 : Nat) = 8 + 2 from rfl, ← List.drop_drop, e8]
    exact drop_block _ _ _ lD
  have e12 : (fmt14 t).drop 12 = zfill 2 (natToStr t.second) := by
    rw [show (12 : Nat) = 10 + 2 from rfl, ← List.drop_drop, e10]
    exact drop_block _ _ _ lE
  have vy : parseNatDigits ((fmt14 t).take 4) = t.year := by
    rw [hsplit, take_block _ _ _ lA, pA]
  have vmo : parseNatDigits (((fmt14 t).drop 4).take 2) = t.month := by
    rw [e4, take_block _ _ _ lB, pB]
  have vd : parseNatDigits (((fmt14 t).drop 6).take 2) = t.day := by
    rw [e6, take_block _ _ _ lC, pC]
  have vh : parseNatDigits (((fmt14 t).drop 8).take 2) = t.hour := by
    rw [e8, take_block _ _ _ lD, pD]
  have vmi : parseNatDigits (((fmt14 t).drop 10).take 2) = t.minute := by
    rw [e10, take_block _ _ _ lE, pE]
  have vs : parseNatDigits (((fmt14 t).drop 12).take 2) = t.second := by
    rw [e12, List.take_of_length_le (le_of_eq lF), pF]
  unfold parse14
  rw [if_pos (by rw [hlen14, hall]; simp)]
  dsimp only
  rw [vy, vmo, vd, vh, vmi, vs]
  rw [if_pos (by
    simp only [Bool.and_eq_true, decide_eq_true_eq]
    refine ⟨⟨⟨⟨⟨⟨⟨⟨by omega, by omega⟩, by omega⟩, by omega⟩, by omega⟩, hd2⟩, hh⟩,
      hmi⟩, hs⟩)]
  rw [← hms]

lemma messageType_value_spec (mt : MessageType) :
    mt.value.length = 1 ∧ asciiStr mt.value ∧ pyStrip mt.value = mt.value ∧
      mt.value ≠ [] ∧ MessageType.fromValue mt.value = some mt := by
  cases mt <;> exact ⟨rfl, by unfold asciiStr; decide, by decide, by decide, by decide⟩

lemma insuranceType_value_spec (it : InsuranceType) :
    it.value.length = 2 ∧ asciiStr it.value ∧ pyStrip it.value = it.value ∧
      it.value ≠ [] ∧ InsuranceType.fromValue it.value = some it := by
  cases it <;> exact ⟨rfl, by unfold asciiStr; decide, by decide, by decide, by decide⟩

lemma digits_no_space {s : PyStr} (hd : ∀ c ∈ s, 48 ≤ c ∧ c ≤ 57) :
    ∀ c ∈ s, isSpaceCp c = false := by
  intro c hc
  have := hd c hc
  simp [isSpaceCp]
  omega

lemma digits_ascii {s : PyStr} (hd : ∀ c ∈ s, 48 ≤ c ∧ c ≤ 57) : asciiStr s := by
  intro c hc
  have := hd c hc
  omega

lemma pyIsDigit_of_digits {s : PyStr} (hd : ∀ c ∈ s, 48 ≤ c ∧ c ≤ 57) (hne : s ≠ []) :
    pyIsDigit s = true := by
  unfold pyIsDigit
  rw [List.all_eq_true.mpr]
  · simp [List.isEmpty_iff, hne]
  · intro c hc
    have := hd c hc
    simp [isDigitCp]
    omega

/-- Every successfully encoded header is exactly 100 bytes. -/
lemma header_toBytes_length (h : EDIHeader) (bs : List Nat)
    (hbs : EDIHeader.toBytes h = some bs) : bs.length = 100 := by
  unfold EDIHeader.toBytes at hbs
  rcases Option.bind_eq_some.mp hbs with ⟨nameBytes, hnb, hbs2⟩
  rcases Option.bind_eq_some.mp hbs2 with ⟨hsBytes, hhb, hbs3⟩
  rw [← Option.some_inj.mp hbs3]
  simp only [List.length_take, ljustBytes, List.length_append, List.length_replicate]
  omega

/-- C2 (amended): every header that `to_bytes` accepts encodes to exactly
100 bytes; and for well-formed headers — ASCII fields within their widths
with no edge whitespace, valid whole-second timestamp, sequence number
0..9999 — `from_bytes(to_bytes(H)) = H`. -/
theorem edi_header_roundtrip (hh : EDIHeader) (now : PyDateTime)
    (h2 : EDIHeader) (bs2 : List Nat) (hwf : WellFormedHeader hh)
    (hl2 : EDIHeader.toBytes h2 = some bs2) :
    (∃ bs, EDIHeader.toBytes hh = some bs ∧ bs.length = 100 ∧
      EDIHeader.fromBytes now bs = some hh)
    ∧ bs2.length = 100 := by
  refine ⟨?_, header_toBytes_length h2 bs2 hl2⟩
  obtain ⟨mid, mty, ver, sid, nam, ity, rc, dt, seq, enc, sg⟩ := hh
  obtain ⟨⟨aMid, lMid, sMid⟩, ⟨aVer, lVer, sVer⟩, ⟨aSid, lSid, sSid⟩,
    ⟨aNam, lNam, sNam⟩, ⟨aRc, lRc, sRc⟩, hvDT, hseq0, hseq9⟩ := hwf
  simp only at aMid lMid sMid aVer lVer sVer aSid lSid sSid aNam lNam sNam
  simp only at aRc lRc sRc hvDT hseq0 hseq9
  obtain ⟨l2, a2, s2, ne2, fv2⟩ := messageType_value_spec mty
  obtain ⟨l6, a6, s6, ne6, fv6⟩ := insuranceType_value_spec ity
  have hint : intToStr seq = natToStr seq.toNat := by
    unfold intToStr
    rw [if_neg (by omega)]
    congr 1
    omega
  have h10k4 : (10 : Nat) ^ 4 = 10000 := by norm_num
  obtain ⟨l9, d9, p9⟩ := zfill_natToStr_spec 4 seq.toNat (by omega) (by omega)
  have hl1 : (ljust 20 mid).length = 20 := ljust_length_of_le _ _ lMid
  have hl3 : (ljust 4 ver).length = 4 := ljust_length_of_le _ _ lVer
  have hl4 : (ljust 13 sid).length = 13 := ljust_length_of_le _ _ lSid
  have hl5 : (ljust 30 nam).length = 30 := ljust_length_of_le _ _ lNam
  have hl7 : (ljust 3 rc).length = 3 := ljust_length_of_le _ _ lRc
  have hl8 : (fmt14 dt).length = 14 := fmt14_length_valid dt hvDT
  have d8dig : ∀ c ∈ fmt14 dt, 48 ≤ c ∧ c ≤ 57 := fmt14_digits_valid dt hvDT
  have ne8 : fmt14 dt ≠ [] := by
    intro hc
    rw [hc] at hl8
    simp at hl8
  have ne9 : zfill 4 (natToStr seq.toNat) ≠ [] := by
    intro hc
    rw [hc] at l9
    simp at l9
  have l10 : (if enc then strLit "Y" else strLit "N").length = 1 := by
    cases enc <;> rfl
  have a10 : asciiStr (if enc then strLit "Y" else strLit "N") := by
    cases enc <;> (unfold asciiStr; decide)
  have l11 : (if sg then strLit "Y" else strLit "N").length = 1 := by
    cases sg <;> rfl
  have a11 : asciiStr (if sg then strLit "Y" else strLit "N") := by
    cases sg <;> (unfold asciiStr; decide)
  have hP2lj : (ljust 1 (MessageType.value mty)).take 1 = MessageType.value mty := by
    have he : ljust 1 (MessageType.value mty) = MessageType.value mty := by
      unfold ljust
      rw [l2]
      simp
    rw [he]
    exact List.take_of_length_le (le_of_eq l2)
  have hP6lj : (ljust 2 (InsuranceType.value ity)).take 2 = InsuranceType.value ity := by
    have he : ljust 2 (InsuranceType.value ity) = InsuranceType.value ity := by
      unfold ljust
      rw [l6]
      simp
    rw [he]
    exact List.take_of_length_le (le_of_eq l6)
  have hP9take : (zfill 4 (intToStr seq)).take 4 = zfill 4 (natToStr seq.toNat) := by
    rw [hint]
    exact List.take_of_length_le (le_of_eq l9)
  have haAll : asciiStr (ljust 20 mid ++ (MessageType.value mty ++ (ljust 4 ver ++
      (ljust 13 sid ++ (ljust 30 nam ++ (InsuranceType.value ity ++ (ljust 3 rc ++
      (fmt14 dt ++ (zfill 4 (natToStr seq.toNat) ++
      ((if enc then strLit "Y" else strLit "N") ++
        (if sg then strLit "Y" else strLit "N"))))))))))) := by
    refine asciiStr_append (asciiStr_ljust 20 aMid) (asciiStr_append a2
      (asciiStr_append (asciiStr_ljust 4 aVer) (asciiStr_append (asciiStr_ljust 13 aSid)
      (asciiStr_append (asciiStr_ljust 30 aNam) (asciiStr_append a6
      (asciiStr_append (asciiStr_ljust 3 aRc) (asciiStr_append (digits_ascii d8dig)
      (asciiStr_append (digits_ascii d9) (asciiStr_append a10 a11)))))))))
  have hlen93 : (ljust 20 mid ++ (MessageType.value mty ++ (ljust 4 ver ++
      (ljust 13 sid ++ (ljust 30 nam ++ (InsuranceType.value ity ++ (ljust 3 rc ++
      (fmt14 dt ++ (zfill 4 (natToStr seq.toNat) ++
      ((if enc then strLit "Y" else strLit "N") ++
        (if sg then strLit "Y" else strLit "N"))))))))))).length = 93 := by
    simp only [List.length_append]
    omega
  have htb : EDIHeader.toBytes
      { messageId := mid, messageType := mty, messageVersion := ver, senderId := sid,
        senderName := nam, insuranceType := ity, receiverCode := rc, sendDatetime := dt,
        sequenceNo := seq, encrypted := enc, signed := sg } =
      some (ljust 20 mid ++ (MessageType.value mty ++ (ljust 4 ver ++
        (ljust 13 sid ++ (ljust 30 nam ++ (InsuranceType.value ity ++ (ljust 3 rc ++
        (fmt14 dt ++ (zfill 4 (natToStr seq.toNat) ++
        ((if enc then strLit "Y" else strLit "N") ++
          ((if sg then strLit "Y" else strLit "N") ++ List.replicate 7 32))))))))))) := by
    unfold EDIHeader.toBytes
    simp only
    rw [encodeEucKr_ascii nam aNam]
    simp only [Option.bind_eq_bind, Option.some_bind]
    have hnp : decodeIgnoreEucKr ((ljustBytes 30 nam).take 30) = ljust 30 nam := by
      have he : ljustBytes 30 nam = ljust 30 nam := rfl
      rw [he, take_ljust 30 _ lNam]
      exact decodeIgnoreEucKr_ascii _ (asciiStr_ljust 30 aNam)
    rw [hnp, take_ljust 20 _ lMid, hP2lj, take_ljust 4 _ lVer, take_ljust 13 _ lSid,
      hP6lj, take_ljust 3 _ lRc, hP9take]
    have hassoc : ljust 20 mid ++ MessageType.value mty ++ ljust 4 ver ++ ljust 13 sid ++
        ljust 30 nam ++ InsuranceType.value ity ++ ljust 3 rc ++ fmt14 dt ++
        zfill 4 (natToStr seq.toNat) ++ (if enc then strLit "Y" else strLit "N") ++
        (if sg then strLit "Y" else strLit "N") =
        ljust 20 mid ++ (MessageType.value mty ++ (ljust 4 ver ++
        (ljust 13 sid ++ (ljust 30 nam ++ (InsuranceType.value ity ++ (ljust 3 rc ++
        (fmt14 dt ++ (zfill 4 (natToStr seq.toNat) ++
        ((if enc then strLit "Y" else strLit "N") ++
          (if sg then strLit "Y" else strLit "N")))))))))) := by
      simp [List.append_assoc]
    rw [hassoc, encodeEucKr_ascii _ haAll]
    simp only [Option.some_bind]
    have hfill : ljustBytes 100 (ljust 20 mid ++ (MessageType.value mty ++ (ljust 4 ver ++
        (ljust 13 sid ++ (ljust 30 nam ++ (InsuranceType.value ity ++ (ljust 3 rc ++
        (fmt14 dt ++ (zfill 4 (natToStr seq.toNat) ++
        ((if enc then strLit "Y" else strLit "N") ++
          (if sg then strLit "Y" else strLit "N"))))))))))) =
        (ljust 20 mid ++ (MessageType.value mty ++ (ljust 4 ver ++
        (ljust 13 sid ++ (ljust 30 nam ++ (InsuranceType.value ity ++ (ljust 3 rc ++
        (fmt14 dt ++ (zfill 4 (natToStr seq.toNat) ++
        ((if enc then strLit "Y" else strLit "N") ++
          (if sg then strLit "Y" else strLit "N"))))))))))) ++ List.replicate 7 32 := by
      unfold ljustBytes
      rw [hlen93]
    rw [hfill]
    rw [List.take_of_length_le (by
      simp only [List.length_append, List.length_replicate]
      omega)]
    congr 1
    simp [List.append_assoc]
  refine ⟨_, htb, ?_, ?_⟩
  · simp only [List.length_append, List.length_replicate]
    omega
  · have haT : asciiStr (ljust 20 mid ++ (MessageType.value mty ++ (ljust 4 ver ++
        (ljust 13 sid ++ (ljust 30 nam ++ (InsuranceType.value ity ++ (ljust 3 rc ++
        (fmt14 dt ++ (zfill 4 (natToStr seq.toNat) ++
        ((if enc then strLit "Y" else strLit "N") ++
          ((if sg then strLit "Y" else strLit "N") ++ List.replicate 7 32))))))))))) := by
      refine asciiStr_append (asciiStr_ljust 20 aMid) (asciiStr_append a2
        (asciiStr_append (asciiStr_ljust 4 aVer) (asciiStr_append (asciiStr_ljust 13 aSid)
        (asciiStr_append (asciiStr_ljust 30 aNam) (asciiStr_append a6
        (asciiStr_append (asciiStr_ljust 3 aRc) (asciiStr_append (digits_ascii d8dig)
        (asciiStr_append (digits_ascii d9) (asciiStr_append a10
          (asciiStr_append a11 (asciiStr_replicate32 7)))))))))))
    set T := ljust 20 mid ++ (MessageType.value mty ++ (ljust 4 ver ++
        (ljust 13 sid ++ (ljust 30 nam ++ (InsuranceType.value ity ++ (ljust 3 rc ++
        (fmt14 dt ++ (zfill 4 (natToStr seq.toNat) ++
        ((if enc then strLit "Y" else strLit "N") ++
          ((if sg then strLit "Y" else strLit "N") ++ List.replicate 7 32)))))))))) with hT
    have htext : decodeIgnoreEucKr T = T := decodeIgnoreEucKr_ascii T haT
    have d20 : T.drop 20 = (MessageType.value mty ++ (ljust 4 ver ++
        (ljust 13 sid ++ (ljust 30 nam ++ (InsuranceType.value ity ++ (ljust 3 rc ++
        (fmt14 dt ++ (zfill 4 (natToStr seq.toNat) ++
        ((if enc then strLit "Y" else strLit "N") ++
          ((if sg then strLit "Y" else strLit "N") ++ List.replicate 7 32)))))))))) :=
      drop_block _ _ _ hl1
    have d21 : T.drop 21 = (ljust 4 ver ++
        (ljust 13 sid ++ (ljust 30 nam ++ (InsuranceType.value ity ++ (ljust 3 rc ++
        (fmt14 dt ++ (zfill 4 (natToStr seq.toNat) ++
        ((if enc then strLit "Y" else strLit "N") ++
          ((if sg then strLit "Y" else strLit "N") ++ List.replicate 7 32))))))))) := by
      rw [show (21 : Nat) = 20 + 1 from rfl, ← List.drop_drop, d20]
      exact drop_block _ _ _ l2
    have d25 : T.drop 25 = (ljust 13 sid ++ (ljust 30 nam ++ (InsuranceType.value ity ++
        (ljust 3 rc ++ (fmt14 dt ++ (zfill 4 (natToStr seq.toNat) ++
        ((if enc then strLit "Y" else strLit "N") ++
          ((if sg then strLit "Y" else strLit "N") ++ List.replicate 7 32)))))))) := by
      rw [show (25 : Nat) = 21 + 4 from rfl, ← List.drop_drop, d21]
      exact drop_block _ _ _ hl3
    have d38 : T.drop 38 = (ljust 30 nam ++ (InsuranceType.value ity ++
        (ljust 3 rc ++ (fmt14 dt ++ (zfill 4 (natToStr seq.toNat) ++
        ((if enc then strLit "Y" else strLit "N") ++
          ((if sg then strLit "Y" else strLit "N") ++ List.replicate 7 32))))))) := by
      rw [show (38 : Nat) = 25 + 13 from rfl, ← List.drop_drop, d25]
      exact drop_block _ _ _ hl4
    have d68 : T.drop 68 = (InsuranceType.value ity ++
        (ljust 3 rc ++ (fmt14 dt ++ (zfill 4 (natToStr seq.toNat) ++
        ((if enc then strLit "Y" else strLit "N") ++
          ((if sg then strLit "Y" else strLit "N") ++ List.replicate 7 32)))))) := by
      rw [show (68 : Nat) = 38 + 30 from rfl, ← List.drop_drop, d38]
      exact drop_block _ _ _ hl5
    have d70 : T.drop 70 = (ljust 3 rc ++ (fmt14 dt ++ (zfill 4 (natToStr seq.toNat) ++
        ((if enc then strLit "Y" else strLit "N") ++
          ((if sg then strLit "Y" else strLit "N") ++ List.replicate 7 32))))) := by
      rw [show (70 : Nat) = 68 + 2 from rfl, ← List.drop_drop, d68]
      exact drop_block _ _ _ l6
    have d73 : T.drop 73 = (fmt14 dt ++ (zfill 4 (natToStr seq.toNat) ++
        ((if enc then strLit "Y" else strLit "N") ++
          ((if sg then strLit "Y" else strLit "N") ++ List.replicate 7 32)))) := by
      rw [show (73 : Nat) = 70 + 3 from rfl, ← List.drop_drop, d70]
      exact drop_block _ _ _ hl7
    have d87 : T.drop 87 = (zfill 4 (natToStr seq.toNat) ++
        ((if enc then strLit "Y" else strLit "N") ++
          ((if sg then strLit "Y" else strLit "N") ++ List.replicate 7 32))) := by
      rw [show (87 : Nat) = 73 + 14 from rfl, ← List.drop_drop, d73]
      exact drop_block _ _ _ hl8
    have d91 : T.drop 91 = ((if enc then strLit "Y" else strLit "N") ++
        ((if sg then strLit "Y" else strLit "N") ++ List.replicate 7 32)) := by
      rw [show (91 : Nat) = 87 + 4 from rfl, ← List.drop_drop, d87]
      exact drop_block _ _ _ l9
    have d92 : T.drop 92 = ((if sg then strLit "Y" else strLit "N") ++
        List.replicate 7 32) := by
      rw [show (92 : Nat) = 91 + 1 from rfl, ← List.drop_drop, d91]
      exact drop_block _ _ _ l10
    have s0 : pySlice 0 20 T = ljust 20 mid := by
      simp only [pySlice, List.drop_zero, Nat.sub_zero]
      exact take_block _ _ _ hl1
    have s1 : pySlice 20 21 T = MessageType.value mty := by
      simp only [pySlice, show 21 - 20 = 1 from rfl]
      rw [d20]
      exact take_block _ _ _ l2
    have s3 : pySlice 21 25 T = ljust 4 ver := by
      simp only [pySlice, show 25 - 21 = 4 from rfl]
      rw [d21]
      exact take_block _ _ _ hl3
    have s4 : pySlice 25 38 T = ljust 13 sid := by
      simp only [pySlice, show 38 - 25 = 13 from rfl]
      rw [d25]
      exact take_block _ _ _ hl4
    have s5 : pySlice 38 68 T = ljust 30 nam := by
      simp only [pySlice, show 68 - 38 = 30 from rfl]
      rw [d38]
      exact take_block _ _ _ hl5
    have s6v : pySlice 68 70 T = InsuranceType.value ity := by
      simp only [pySlice, show 70 - 68 = 2 from rfl]
      rw [d68]
      exact take_block _ _ _ l6
    have s7 : pySlice 70 73 T = ljust 3 rc := by
      simp only [pySlice, show 73 - 70 = 3 from rfl]
      rw [d70]
      exact take_block _ _ _ hl7
    have s8 : pySlice 73 87 T = fmt14 dt := by
      simp only [pySlice, show 87 - 73 = 14 from rfl]
      rw [d73]
      exact take_block _ _ _ hl8
    have s9 : pySlice 87 91 T = zfill 4 (natToStr seq.toNat) := by
      simp only [pySlice, show 91 - 87 = 4 from rfl]
      rw [d87]
      exact take_block _ _ _ l9
    have s10 : pySlice 91 92 T = (if enc then strLit "Y" else strLit "N") := by
      simp only [pySlice, show 92 - 91 = 1 from rfl]
      rw [d91]
      exact take_block _ _ _ l10
    have s11 : pySlice 92 93 T = (if sg then strLit "Y" else strLit "N") := by
      simp only [pySlice, show 93 - 92 = 1 from rfl]
      rw [d92]
      exact take_block _ _ _ l11
    have hmid : pyStrip (pySlice 0 20 T) = mid := by
      rw [s0]
      exact pyStrip_append_spaces _ _ sMid
    have hmtfull : MessageType.fromValue
        (if pyStrip (pySlice 20 21 T) = [] then strLit "S"
          else pyStrip (pySlice 20 21 T)) = some mty := by
      rw [s1, s2, if_neg ne2]
      exact fv2
    have hver : pyStrip (pySlice 21 25 T) = ver := by
      rw [s3]
      exact pyStrip_append_spaces _ _ sVer
    have hsid : pyStrip (pySlice 25 38 T) = sid := by
      rw [s4]
      exact pyStrip_append_spaces _ _ sSid
    have hnam : pyStrip (pySlice 38 68 T) = nam := by
      rw [s5]
      exact pyStrip_append_spaces _ _ sNam
    have hitfull : InsuranceType.fromValue
        (if pyStrip (pySlice 68 70 T) = [] then strLit "10"
          else pyStrip (pySlice 68 70 T)) = some ity := by
      rw [s6v, s6, if_neg ne6]
      exact fv6
    have hrc : pyStrip (pySlice 70 73 T) = rc := by
      rw [s7]
      exact pyStrip_append_spaces _ _ sRc
    have strip8 : pyStrip (pySlice 73 87 T) = fmt14 dt := by
      rw [s8]
      exact pyStrip_no_space _ (digits_no_space d8dig)
    have hc873 : ¬ (pyStrip (pySlice 73 87 T) = []) := by
      rw [strip8]
      exact ne8
    have strip9 : pyStrip (pySlice 87 91 T) = zfill 4 (natToStr seq.toNat) := by
      rw [s9]
      exact pyStrip_no_space _ (digits_no_space d9)
    have hdig9 : pyIsDigit (pyStrip (pySlice 87 91 T)) = true := by
      rw [strip9]
      exact pyIsDigit_of_digits d9 ne9
    show EDIHeader.fromBytes now T = some
      { messageId := mid, messageType := mty, messageVersion := ver, senderId := sid,
        senderName := nam, insuranceType := ity, receiverCode := rc, sendDatetime := dt,
        sequenceNo := seq, encrypted := enc, signed := sg }
    unfold EDIHeader.fromBytes
    simp only [htext]
    rw [hmtfull]
    simp only [Option.bind_eq_bind, Option.some_bind]
    rw [hitfull]
    simp only [Option.some_bind]
    rw [if_neg hc873, s8, parse14_fmt14 dt hvDT]
    simp only [Option.some_bind]
    rw [hmid, hver, hsid, hnam, hrc, hdig9, if_pos rfl, strip9, p9,
      Int.toNat_of_nonneg hseq0]
    have henc : (decide (pySlice 91 92 T = strLit "Y")) = enc := by
      rw [s10]
      cases enc <;> decide
    have hsg2 : (decide (pySlice 92 93 T = strLit "Y")) = sg := by
      rw [s11]
      cases sg <;> decide
    rw [henc, hsg2]
    rfl

set_option maxRecDepth 400000 in
/-- Witness for C2: the concrete header `testHdr` is well-formed, encodes to
100 bytes, and round-trips through `to_bytes` / `from_bytes`. -/
theorem edi_header_roundtrip_witness :
    (∃ bs, EDIHeader.toBytes testHdr = some bs ∧ bs.length = 100 ∧
      EDIHeader.fromBytes testDT bs = some testHdr)
    ∧ testHdrBytes.length = 100 :=
  edi_header_roundtrip testHdr testDT testHdr testHdrBytes
    (by unfold WellFormedHeader asciiStr PyDateTime.Valid; decide)
    (by decide)

set_option maxRecDepth 400000 in
/-- Counterexample for C2 as stated: the header with messageId " A" (leading
space) is accepted by `to_bytes`, but the round-trip strips the space and
returns a different header, so `from_bytes(to_bytes(H)) = H` fails. -/
theorem edi_header_roundtrip_counterexample :
    (EDIHeader.toBytes ce2Hdr).isSome = true
    ∧ (EDIHeader.toBytes ce2Hdr).bind (EDIHeader.fromBytes testDT) ≠ some ce2Hdr
    ∧ (EDIHeader.toBytes ce2Hdr).bind (EDIHeader.fromBytes testDT) =
        some { ce2Hdr with messageId := strLit "A" } := by
  refine ⟨by decide, by decide, by decide⟩

end SaasKerp
